import Mathlib

/-!
# CC1101 SPI driver (components/wmbus_radio/cc1101_driver.cpp)

A shallow embedding of the driver's eight public operations and of the
warning limiter, followed by theorems about the bus traffic they produce,
the retry loops and their delays, and the limiter's window and counter.

The driver talks to three external collaborators: the SPI device behind
`this->spi_` (enable, transfer_byte, transfer_array, disable), the clock
(`millis`, `delayMicroseconds`) and the logger (`ESP_LOGW`, `ESP_LOGV`).
They are modelled by a `World` that

* holds the bytes the bus will read back, in the order in which they will be
  read (`rx`, with the cursor `pos`), and the readings the millisecond clock
  will give (`clock`, with the cursor `tick`); every theorem quantifies over
  all of these, so nothing is assumed about the device;
* records every call made to a collaborator, in order, in `trace`;
* holds the two function-local statics of `should_log_spi_ff_warning_`.

The code of the collaborators and the header `cc1101_driver.h` are not among
the sources. The collaborators only record their call and hand out the next
byte or clock reading; the constants of the header are parameters (`Header`),
and a register, status register or strobe is given by its one-byte code.
-/

namespace wmbus_radio

/-! ## Data model -/

/-- One byte, the `uint8_t` of the source. -/
abbrev Byte := Fin 256

/-- The constants of `cc1101_driver.h` used by the driver. The header is not
among the sources, so their values are parameters of every operation. -/
structure Header where
  CC1101_READ_SINGLE : Byte
  CC1101_READ_BURST : Byte
  CC1101_WRITE_BURST : Byte
  CC1101_FIFO : Byte

/-- A configuration register, given by the byte `static_cast<uint8_t>(reg)`. -/
structure CC1101Register where
  code : Byte
deriving DecidableEq, Repr

/-- A status register, given by the byte `static_cast<uint8_t>(status)`. -/
structure CC1101Status where
  code : Byte
deriving DecidableEq, Repr

/-- A command strobe, given by the byte `static_cast<uint8_t>(strobe)`. -/
structure CC1101Strobe where
  code : Byte
deriving DecidableEq, Repr

/-- The seven log statements of the source, one constructor per statement,
with the values the statement formats. -/
inductive Diag where
  /-- line 19, `ESP_LOGW`: "suppressed %u repeated SPI 0xFF warnings" -/
  | suppressed (count : Nat)
  /-- line 41, `ESP_LOGV`: "read_register retry ok reg=.. attempts=.." -/
  | read_register_retry_ok (reg : Byte) (attempts : Nat)
  /-- line 49, `ESP_LOGW`: "read_register returned status 0xFF reg=.." -/
  | read_register_ff (reg : Byte)
  /-- line 76, `ESP_LOGV`: "read_status retry ok status=.. attempts=.." -/
  | read_status_retry_ok (status : Byte) (attempts : Nat)
  /-- line 84, `ESP_LOGW`: "read_status returned status 0xFF status=.." -/
  | read_status_ff (status : Byte)
  /-- line 128, `ESP_LOGV`: "send_strobe retry ok strobe=.. attempts=.." -/
  | send_strobe_retry_ok (strobe : Byte) (attempts : Nat)
  /-- line 136, `ESP_LOGW`: "send_strobe returned 0xFF strobe=.." -/
  | send_strobe_ff (strobe : Byte)
deriving DecidableEq, Repr

/-- One call to an external collaborator, with what it was given and what it
gave back. -/
inductive Event where
  /-- `spi_->enable()` -/
  | select
  /-- `spi_->disable()` -/
  | deselect
  /-- `spi_->transfer_byte(out)` returning `inp` -/
  | exchange (out inp : Byte)
  /-- `spi_->transfer_array(buffer, length)`: the bytes sent and the bytes
  read back in their place -/
  | block (out inp : List Byte)
  /-- `delayMicroseconds(us)` -/
  | delay (us : Nat)
  /-- `ESP_LOGW` / `ESP_LOGV` -/
  | log (d : Diag)
deriving DecidableEq, Repr

/-- Everything outside the driver, and the driver's two static variables. -/
structure World where
  /-- the bytes the bus reads back, in order -/
  rx : Nat → Byte
  /-- how many of them have been read -/
  pos : Nat
  /-- the readings of `millis()`, in order -/
  clock : Nat → Nat
  /-- how many of them have been taken -/
  tick : Nat
  /-- the calls made so far, oldest first -/
  trace : List Event
  /-- `static uint32_t last_warn_ms` (line 13) -/
  last_warn_ms : Nat
  /-- `static uint32_t suppressed` (line 14) -/
  suppressed : Nat

/-- The world at process start: nothing read, nothing called, both statics 0
as initialised on lines 13 and 14. -/
def World.boot (rx : Nat → Byte) (clock : Nat → Nat) : World :=
  { rx := rx, pos := 0, clock := clock, tick := 0, trace := [],
    last_warn_ms := 0, suppressed := 0 }

/-! ## External collaborators -/

/-- `this->spi_->enable()` -/
def enable (w : World) : World :=
  { w with trace := w.trace ++ [Event.select] }

/-- `this->spi_->disable()` -/
def disable (w : World) : World :=
  { w with trace := w.trace ++ [Event.deselect] }

/-- `this->spi_->transfer_byte(out)`: sends `out`, returns the next byte the
bus reads back. -/
def transfer_byte (out : Byte) (w : World) : Byte × World :=
  (w.rx w.pos,
   { w with pos := w.pos + 1, trace := w.trace ++ [Event.exchange out (w.rx w.pos)] })

/-- The next `length` bytes the bus reads back. -/
def incoming (w : World) (length : Nat) : List Byte :=
  (List.range length).map (fun i => w.rx (w.pos + i))

/-- `this->spi_->transfer_array(buffer, length)`, the bidirectional in-place
block exchange of the bus transport: sends the first `length` bytes of
`buffer` and overwrites them with the bytes read back. Returns the buffer as
the caller finds it afterwards. -/
def transfer_array (buffer : List Byte) (length : Nat) (w : World) : List Byte × World :=
  (incoming w length ++ buffer.drop length,
   { w with pos := w.pos + length,
            trace := w.trace ++ [Event.block (buffer.take length) (incoming w length)] })

/-- `delayMicroseconds(us)` -/
def delayMicroseconds (us : Nat) (w : World) : World :=
  { w with trace := w.trace ++ [Event.delay us] }

/-- `millis()`, a `uint32_t`. -/
def millis (w : World) : Nat × World :=
  (w.clock w.tick % 2 ^ 32, { w with tick := w.tick + 1 })

/-- `ESP_LOGW(...)` / `ESP_LOGV(...)` -/
def log (d : Diag) (w : World) : World :=
  { w with trace := w.trace ++ [Event.log d] }

/-! ## The driver -/

/-- Line 9. -/
def CC1101_SPI_MAX_RETRIES : Nat := 5

/-- Line 10. -/
def CC1101_SPI_RETRY_DELAY_US : Nat := 50

/-- Lines 12-26. The subtraction `now - last_warn_ms` and the increment
`suppressed++` are on `uint32_t`, hence modulo `2 ^ 32`. -/
def should_log_spi_ff_warning_ (w : World) : Bool × World :=
  let now := (millis w).1
  let w1 := (millis w).2
  if (now + 2 ^ 32 - w1.last_warn_ms) % 2 ^ 32 ≥ 1000 then
    let w2 := { w1 with last_warn_ms := now }
    if w2.suppressed > 0 then
      (true, { log (Diag.suppressed w2.suppressed) w2 with suppressed := 0 })
    else
      (true, w2)
  else
    (false, { w1 with suppressed := (w1.suppressed + 1) % 2 ^ 32 })

/-- The `for` loop of `read_register`, lines 33-46, with `remaining` the
number of iterations left: `attempt = CC1101_SPI_MAX_RETRIES - remaining`.
The result is `some value` when the loop was left by `return value` (line 43)
and `none` when it ran to its end. -/
def read_register_loop (reg : CC1101Register) (addr : Byte) : Nat → World → Option Byte × World
  | 0, w => (none, w)
  | remaining + 1, w =>
    let attempt := CC1101_SPI_MAX_RETRIES - (remaining + 1)
    let w1 := enable w
    let status_byte := (transfer_byte addr w1).1
    let w2 := (transfer_byte addr w1).2
    let value := (transfer_byte 0x00 w2).1
    let w3 := (transfer_byte 0x00 w2).2
    let w4 := disable w3
    if status_byte ≠ 0xFF then
      if attempt > 0 then
        (some value, log (Diag.read_register_retry_ok reg.code (attempt + 1)) w4)
      else
        (some value, w4)
    else
      read_register_loop reg addr remaining (delayMicroseconds CC1101_SPI_RETRY_DELAY_US w4)

/-- Lines 30-51 of `read_register`: everything after `addr` has been
computed on line 29. -/
def read_register_from (reg : CC1101Register) (addr : Byte) (w : World) : Byte × World :=
  match read_register_loop reg addr CC1101_SPI_MAX_RETRIES w with
  | (some value, w1) => (value, w1)
  | (none, w1) =>
    if (should_log_spi_ff_warning_ w1).1 then
      (0xFF, log (Diag.read_register_ff reg.code) (should_log_spi_ff_warning_ w1).2)
    else
      (0xFF, (should_log_spi_ff_warning_ w1).2)

/-- `CC1101Driver::read_register`, lines 28-52. -/
def read_register (h : Header) (reg : CC1101Register) (w : World) : Byte × World :=
  let addr := reg.code ||| h.CC1101_READ_SINGLE
  read_register_from reg addr w

/-- `CC1101Driver::write_register`, lines 54-61. -/
def write_register (reg : CC1101Register) (value : Byte) (w : World) : World :=
  let addr := reg.code
  let w1 := enable w
  let w2 := (transfer_byte addr w1).2
  let w3 := (transfer_byte value w2).2
  disable w3

/-- The `for` loop of `read_status`, lines 68-81; see `read_register_loop`. -/
def read_status_loop (status : CC1101Status) (addr : Byte) : Nat → World → Option Byte × World
  | 0, w => (none, w)
  | remaining + 1, w =>
    let attempt := CC1101_SPI_MAX_RETRIES - (remaining + 1)
    let w1 := enable w
    let status_byte := (transfer_byte addr w1).1
    let w2 := (transfer_byte addr w1).2
    let value := (transfer_byte 0x00 w2).1
    let w3 := (transfer_byte 0x00 w2).2
    let w4 := disable w3
    if status_byte ≠ 0xFF then
      if attempt > 0 then
        (some value, log (Diag.read_status_retry_ok status.code (attempt + 1)) w4)
      else
        (some value, w4)
    else
      read_status_loop status addr remaining (delayMicroseconds CC1101_SPI_RETRY_DELAY_US w4)

/-- `CC1101Driver::read_status`, lines 63-87. -/
def read_status (h : Header) (status : CC1101Status) (w : World) : Byte × World :=
  let addr := status.code ||| h.CC1101_READ_BURST
  match read_status_loop status addr CC1101_SPI_MAX_RETRIES w with
  | (some value, w1) => (value, w1)
  | (none, w1) =>
    if (should_log_spi_ff_warning_ w1).1 then
      (0xFF, log (Diag.read_status_ff status.code) (should_log_spi_ff_warning_ w1).2)
    else
      (0xFF, (should_log_spi_ff_warning_ w1).2)

/-- `CC1101Driver::read_burst`, lines 89-100. Returns the caller's buffer as
it is after the call. -/
def read_burst (h : Header) (reg : CC1101Register) (buffer : List Byte) (length : Nat)
    (w : World) : List Byte × World :=
  if length = 0 then (buffer, w)
  else
    let addr := reg.code ||| h.CC1101_READ_BURST
    let w1 := enable w
    let w2 := (transfer_byte addr w1).2
    let buffer1 := (transfer_array buffer length w2).1
    let w3 := (transfer_array buffer length w2).2
    (buffer1, disable w3)

/-- The loop `for (size_t i = 0; i < length; i++) transfer_byte(buffer[i])`
of lines 111-113 and 161-163. Reading `buffer[i]` beyond the end of the
caller's buffer is undefined in the source; it reads 0 here, and the theorems
are about buffers that hold `length` bytes. -/
def write_loop (buffer : List Byte) (length : Nat) (w : World) : World :=
  (List.range length).foldl (fun acc i => (transfer_byte (buffer.getD i 0) acc).2) w

/-- `CC1101Driver::write_burst`, lines 102-115. The buffer is `const`. -/
def write_burst (h : Header) (reg : CC1101Register) (buffer : List Byte) (length : Nat)
    (w : World) : World :=
  if length = 0 then w
  else
    let addr := reg.code ||| h.CC1101_WRITE_BURST
    let w1 := enable w
    let w2 := (transfer_byte addr w1).2
    let w3 := write_loop buffer length w2
    disable w3

/-- The `for` loop of `send_strobe`, lines 121-133, with `remaining` the
number of iterations left and `status` the local variable of line 119. The
result is `some status` when the loop was left by `return status` (line 130);
otherwise `none` with the value `status` has at the end of the loop. -/
def send_strobe_loop (strobe : CC1101Strobe) (addr : Byte) :
    Nat → Byte → World → Option Byte × Byte × World
  | 0, status, w => (none, status, w)
  | remaining + 1, _, w =>
    let attempt := CC1101_SPI_MAX_RETRIES - (remaining + 1)
    let w1 := enable w
    let status := (transfer_byte addr w1).1
    let w2 := (transfer_byte addr w1).2
    let w3 := disable w2
    if status ≠ 0xFF then
      if attempt > 0 then
        (some status, status, log (Diag.send_strobe_retry_ok strobe.code (attempt + 1)) w3)
      else
        (some status, status, w3)
    else
      send_strobe_loop strobe addr remaining status
        (delayMicroseconds CC1101_SPI_RETRY_DELAY_US w3)

/-- `CC1101Driver::send_strobe`, lines 117-139. -/
def send_strobe (strobe : CC1101Strobe) (w : World) : Byte × World :=
  let addr := strobe.code
  match send_strobe_loop strobe addr CC1101_SPI_MAX_RETRIES 0xFF w with
  | (some status, _, w1) => (status, w1)
  | (none, status, w1) =>
    if (should_log_spi_ff_warning_ w1).1 then
      (status, log (Diag.send_strobe_ff strobe.code) (should_log_spi_ff_warning_ w1).2)
    else
      (status, (should_log_spi_ff_warning_ w1).2)

/-- `CC1101Driver::read_rx_fifo`, lines 141-151. -/
def read_rx_fifo (h : Header) (buffer : List Byte) (length : Nat) (w : World) :
    List Byte × World :=
  if length = 0 then (buffer, w)
  else
    let addr := h.CC1101_FIFO ||| h.CC1101_READ_BURST
    let w1 := enable w
    let w2 := (transfer_byte addr w1).2
    let buffer1 := (transfer_array buffer length w2).1
    let w3 := (transfer_array buffer length w2).2
    (buffer1, disable w3)

/-- `CC1101Driver::write_tx_fifo`, lines 153-165. -/
def write_tx_fifo (h : Header) (buffer : List Byte) (length : Nat) (w : World) : World :=
  if length = 0 then w
  else
    let addr := h.CC1101_FIFO ||| h.CC1101_WRITE_BURST
    let w1 := enable w
    let w2 := (transfer_byte addr w1).2
    let w3 := write_loop buffer length w2
    disable w3


/-! ## Describing traces -/

/-- The world after `n` more bytes were read back and the calls `es` made. -/
def World.advance (w : World) (n : Nat) (es : List Event) : World :=
  { w with pos := w.pos + n, trace := w.trace ++ es }

/-- The calls made since the world was `w0`. -/
def World.since (w w0 : World) : List Event :=
  w.trace.drop w0.trace.length

/-- One transaction of a single-register read: select, the address byte
(reading back `status`), a zero byte (reading back `data`), deselect. -/
def read_frame (addr status data : Byte) : List Event :=
  [Event.select, Event.exchange addr status, Event.exchange 0x00 data, Event.deselect]

/-- The first `k` attempts of a read that all read back status `0xFF`, each
followed by the retry delay; attempt `i` reads the bytes `2 * i` and
`2 * i + 1` after `w.pos`. -/
def failed_reads (addr : Byte) (w : World) (k : Nat) : List Event :=
  (List.range k).flatMap fun i =>
    read_frame addr 0xFF (w.rx (w.pos + 2 * i + 1)) ++ [Event.delay CC1101_SPI_RETRY_DELAY_US]

/-- Number of `select` calls in a trace. -/
def selects (t : List Event) : Nat := t.count Event.select

/-- Number of `deselect` calls in a trace. -/
def deselects (t : List Event) : Nat := t.count Event.deselect

/-- One transaction of a strobe: select, the command byte (reading back
`status`), deselect. -/
def strobe_frame (addr status : Byte) : List Event :=
  [Event.select, Event.exchange addr status, Event.deselect]

/-- The first `k` attempts of a strobe that all read back `0xFF`, each
followed by the retry delay. -/
def failed_strobes (addr : Byte) (k : Nat) : List Event :=
  (List.range k).flatMap fun _ =>
    strobe_frame addr 0xFF ++ [Event.delay CC1101_SPI_RETRY_DELAY_US]

/-- Whether an event is a call to the SPI device. -/
def Event.is_bus : Event → Bool
  | Event.select => true
  | Event.deselect => true
  | Event.exchange _ _ => true
  | Event.block _ _ => true
  | Event.delay _ => false
  | Event.log _ => false

/-- The bus trace: the calls to the SPI device, in order. -/
def bus (t : List Event) : List Event := t.filter Event.is_bus

/-- Lines 48-50, 83-85 and 135-137: the limiter is asked, and the warning `d`
is logged when it permits. -/
def report_exhausted (d : Diag) (w : World) : World :=
  if (should_log_spi_ff_warning_ w).1 then log d (should_log_spi_ff_warning_ w).2
  else (should_log_spi_ff_warning_ w).2

/-- The log calls `report_exhausted d` makes in the world `w`: when the
limiter permits, the count of suppressed warnings if it is not 0, then the
warning `d`; nothing when it does not permit. -/
def warning_events (d : Diag) (w : World) : List Event :=
  if (w.clock w.tick % 2 ^ 32 + 2 ^ 32 - w.last_warn_ms) % 2 ^ 32 ≥ 1000 then
    (if w.suppressed > 0 then [Event.log (Diag.suppressed w.suppressed)] else [])
      ++ [Event.log d]
  else []

/-- What the driver itself puts on the bus, without the bytes read back. -/
inductive Sent where
  /-- chip select asserted -/
  | select
  /-- chip select released -/
  | deselect
  /-- one byte clocked out -/
  | byte (b : Byte)
deriving DecidableEq, Repr

/-- What the driver puts on the bus during a trace: the framing and the
bytes sent, in order. A block transfer clocks out its bytes one after the
other. -/
def sent : List Event → List Sent
  | [] => []
  | Event.select :: t => Sent.select :: sent t
  | Event.deselect :: t => Sent.deselect :: sent t
  | Event.exchange out _ :: t => Sent.byte out :: sent t
  | Event.block out _ :: t => out.map Sent.byte ++ sent t
  | Event.delay _ :: t => sent t
  | Event.log _ :: t => sent t

/-- The two log statements of `read_status` renamed to the two of
`read_register` for the register `reg`; every other event is left as it is. -/
def as_read_register (reg : CC1101Register) : Event → Event
  | Event.log (Diag.read_status_retry_ok _ attempts) =>
      Event.log (Diag.read_register_retry_ok reg.code attempts)
  | Event.log (Diag.read_status_ff _) => Event.log (Diag.read_register_ff reg.code)
  | e => e

/-- Whether an event is a log statement. -/
def Event.is_log : Event → Bool
  | Event.log _ => true
  | _ => false

/-- The calls to the SPI device and the delays of a trace, in order. -/
def timed_bus (t : List Event) : List Event := t.filter fun e => !e.is_log

/-- Number of single-byte exchanges in a trace. -/
def exchanges (t : List Event) : Nat :=
  t.countP fun e => match e with
    | Event.exchange _ _ => true
    | _ => false

/-- The exchanges of the loop of `write_burst` / `write_tx_fifo` started in
the world `w`: byte `i` of the buffer goes out and byte `i` after `w.pos`
comes back. -/
def payload_exchanges (buffer : List Byte) (length : Nat) (w : World) : List Event :=
  (List.range length).map fun i => Event.exchange (buffer.getD i 0) (w.rx (w.pos + i))

/-- A call of one of the eight public operations, with its arguments. -/
inductive Call where
  | read_register (reg : CC1101Register)
  | write_register (reg : CC1101Register) (value : Byte)
  | read_status (status : CC1101Status)
  | read_burst (reg : CC1101Register) (buffer : List Byte) (length : Nat)
  | write_burst (reg : CC1101Register) (buffer : List Byte) (length : Nat)
  | send_strobe (strobe : CC1101Strobe)
  | read_rx_fifo (buffer : List Byte) (length : Nat)
  | write_tx_fifo (buffer : List Byte) (length : Nat)

/-- The world after a call. -/
def Call.run (h : Header) : Call → World → World
  | Call.read_register reg, w => (wmbus_radio.read_register h reg w).2
  | Call.write_register reg value, w => wmbus_radio.write_register reg value w
  | Call.read_status status, w => (wmbus_radio.read_status h status w).2
  | Call.read_burst reg buffer length, w => (wmbus_radio.read_burst h reg buffer length w).2
  | Call.write_burst reg buffer length, w => wmbus_radio.write_burst h reg buffer length w
  | Call.send_strobe strobe, w => (wmbus_radio.send_strobe strobe w).2
  | Call.read_rx_fifo buffer length, w => (wmbus_radio.read_rx_fifo h buffer length w).2
  | Call.write_tx_fifo buffer length, w => wmbus_radio.write_tx_fifo h buffer length w

/-- The world after a sequence of calls, made one after the other. -/
def run_calls (h : Header) (calls : List Call) (w : World) : World :=
  calls.foldl (fun acc c => c.run h acc) w

/-- The reading `millis()` gives at its `i`-th next call in the world `w`. -/
def reading (w : World) (i : Nat) : Nat := w.clock (w.tick + i) % 2 ^ 32

/-- The `uint32_t` difference `now - last` of line 16. -/
def elapsed (now last : Nat) : Nat := (now + 2 ^ 32 - last) % 2 ^ 32

/-- The first `n` consecutive calls of `should_log_spi_ff_warning_` made in
the world `w`: what each returned, oldest first, and the world afterwards. -/
def limiter_run : Nat → World → List Bool × World
  | 0, w => ([], w)
  | n + 1, w =>
    ((should_log_spi_ff_warning_ w).1 :: (limiter_run n (should_log_spi_ff_warning_ w).2).1,
     (limiter_run n (should_log_spi_ff_warning_ w).2).2)

/-- The sum of the counts reported by the summary messages (line 19) of a
trace. -/
def reported : List Event → Nat
  | [] => 0
  | Event.log (Diag.suppressed count) :: t => count + reported t
  | _ :: t => reported t

/-- Whether the counter `suppressed` stays below `2 ^ 32` during the first
`n` consecutive calls of `should_log_spi_ff_warning_` made in the world `w`:
no suppressed call finds it at `2 ^ 32 - 1`. -/
def never_wraps : Nat → World → Bool
  | 0, _ => true
  | n + 1, w =>
    ((should_log_spi_ff_warning_ w).1 || decide (w.suppressed + 1 < 2 ^ 32))
      && never_wraps n (should_log_spi_ff_warning_ w).2

/-- The arguments of the calls of `delayMicroseconds` in a trace, in order. -/
def delays : List Event → List Nat
  | [] => []
  | Event.delay us :: t => us :: delays t
  | _ :: t => delays t

/-- What the limiter keeps between calls and what counts its calls: the
number of readings taken from `millis()`, which only the limiter calls, and
the two statics. -/
def limiter_state (w : World) : Nat × Nat × Nat :=
  (w.tick, w.last_warn_ms, w.suppressed)

/-- Whether all five attempts of a register or status read started in the
world `w` read back status `0xFF`. -/
def reads_exhaust (w : World) : Bool :=
  decide (∀ i, i < CC1101_SPI_MAX_RETRIES → w.rx (w.pos + 2 * i) = 0xFF)

/-- Whether all five attempts of a strobe started in the world `w` read back
`0xFF`. -/
def strobes_exhaust (w : World) : Bool :=
  decide (∀ i, i < CC1101_SPI_MAX_RETRIES → w.rx (w.pos + i) = 0xFF)

/-- Whether an event is a byte exchange or a block exchange. -/
def Event.is_exchange : Event → Bool
  | Event.exchange _ _ => true
  | Event.block _ _ => true
  | _ => false

/-- A frame: one select, then at least one byte or block exchange and
nothing else, then one deselect. -/
def IsFrame (f : List Event) : Prop :=
  ∃ body : List Event, body ≠ [] ∧ (∀ e, e ∈ body → e.is_exchange = true)
    ∧ f = Event.select :: body ++ [Event.deselect]

/-- A trace whose calls to the SPI device are a concatenation of zero or more
frames. -/
def Framed (t : List Event) : Prop :=
  ∃ frames : List (List Event), bus t = frames.flatten ∧ ∀ f, f ∈ frames → IsFrame f

/-- The chip-select line as the driver's calls leave it: released, or
asserted with or without an exchange made since. -/
inductive Line where
  | idle
  | selected (exchanged : Bool)
deriving DecidableEq, Repr

/-- The effect of one call on the chip-select line; `none` when the call
breaks the framing: a select while selected, an exchange or a deselect while
released, a deselect with no exchange since the select. Delays and log
statements leave the line as it is. -/
def Line.step (l : Line) : Event → Option Line
  | Event.select =>
    match l with
    | Line.idle => some (Line.selected false)
    | Line.selected _ => none
  | Event.exchange _ _ =>
    match l with
    | Line.idle => none
    | Line.selected _ => some (Line.selected true)
  | Event.block _ _ =>
    match l with
    | Line.idle => none
    | Line.selected _ => some (Line.selected true)
  | Event.deselect =>
    match l with
    | Line.idle => none
    | Line.selected exchanged => if exchanged then some Line.idle else none
  | Event.delay _ => some l
  | Event.log _ => some l

/-- The chip-select line after a trace started in the state `l`; `none` when
a call breaks the framing. -/
def line_from (l : Line) : List Event → Option Line
  | [] => some l
  | e :: t =>
    match l.step e with
    | some l' => line_from l' t
    | none => none

/-! ## Sample inputs -/

/-- The values the CC1101 data sheet gives for the constants of the header:
read single 0x80, read burst 0xC0, write burst 0x40, FIFO 0x3F. -/
def sample_header : Header :=
  { CC1101_READ_SINGLE := 0x80, CC1101_READ_BURST := 0xC0, CC1101_WRITE_BURST := 0x40,
    CC1101_FIFO := 0x3F }

/-- A bus that reads back the listed bytes and then zeros. -/
def rx_of (bytes : List Byte) : Nat → Byte := fun i => bytes.getD i 0

/-- A bus on which two read attempts find status `0xFF` (with data `0x11`,
`0x33`) and the third finds status `0x0F` with data `0x55`. -/
def sample_two_ff : World :=
  World.boot (rx_of [0xFF, 0x11, 0xFF, 0x33, 0x0F, 0x55]) (fun _ => 0)

/-- A bus that reads back `0xFF` for ever, at process start with the clock
at 5000 ms. -/
def sample_all_ff : World :=
  World.boot (fun _ => 0xFF) (fun _ => 5000)

/-- A bus whose status bytes are `0xFF` for ever while the data bytes are
`0x2A`: byte `2 * i` is a status, byte `2 * i + 1` a data byte. -/
def sample_ff_status : World :=
  World.boot (fun i => if i % 2 = 0 then 0xFF else 0x2A) (fun _ => 5000)

/-- A bus on which two strobe attempts read back `0xFF` and the third reads
back `0x1F`. -/
def sample_strobe_two_ff : World :=
  World.boot (rx_of [0xFF, 0xFF, 0x1F, 0x00]) (fun _ => 0)

/-- A bus that reads back `0xFF`, `0x01`, `0x02`, `0x03`, `0x0F`, `0x11`,
`0x22`, then zeros, after some earlier traffic: two bytes already read, one
transaction in the trace. -/
def sample_busy : World :=
  { rx := rx_of [0x0F, 0x00, 0xFF, 0x01, 0x02, 0x03, 0x0F, 0x11, 0x22], pos := 2, clock := fun _ => 0,
    tick := 0,
    trace := [Event.select, Event.exchange 0x02 0x0F, Event.exchange 0x06 0x00,
      Event.deselect],
    last_warn_ms := 0, suppressed := 0 }

/-- The process 500 ms after its start, with a bus that reads back `0xFF`
for ever: the clock reads 500 at every call. -/
def sample_early : World :=
  World.boot (fun _ => 0xFF) (fun _ => 500)

/-- A process whose clock wraps: the successive readings are `2 ^ 32 - 500`,
`2 ^ 32 - 200`, `100`, `400`, `600`, then `0`. -/
def sample_wrap : World :=
  World.boot (fun _ => 0xFF)
    (fun i => [4294966796, 4294967096, 100, 400, 600].getD i 0)

theorem World.advance_advance (w : World) (n m : Nat) (es fs : List Event) :
    (w.advance n es).advance m fs = w.advance (n + m) (es ++ fs) := by
  simp [World.advance, Nat.add_assoc, List.append_assoc]

theorem World.advance_zero (w : World) : w.advance 0 [] = w := by
  simp [World.advance]

theorem World.since_advance (w : World) (n : Nat) (es : List Event) :
    (w.advance n es).since w = es := by
  simp [World.advance, World.since]

theorem failed_reads_succ (addr : Byte) (w : World) (k : Nat) (es : List Event) :
    failed_reads addr w (k + 1)
      = read_frame addr 0xFF (w.rx (w.pos + 1)) ++ [Event.delay CC1101_SPI_RETRY_DELAY_US]
        ++ failed_reads addr (w.advance 2 es) k := by
  simp only [failed_reads, List.range_succ_eq_map, List.flatMap_cons, List.flatMap_map]
  congr 1
  apply List.flatMap_congr
  intro i _
  simp [World.advance, Nat.mul_succ]
  congr 3
  omega

theorem read_register_loop_fail (reg : CC1101Register) (addr : Byte) (r : Nat) (w : World)
    (hff : w.rx w.pos = 0xFF) :
    read_register_loop reg addr (r + 1) w
      = read_register_loop reg addr r
          (w.advance 2 (read_frame addr 0xFF (w.rx (w.pos + 1))
            ++ [Event.delay CC1101_SPI_RETRY_DELAY_US])) := by
  simp [read_register_loop, enable, transfer_byte, disable, delayMicroseconds, hff,
    World.advance, read_frame]

theorem read_register_loop_ok (reg : CC1101Register) (addr : Byte) (r : Nat) (w : World)
    (hok : w.rx w.pos ≠ 0xFF) :
    read_register_loop reg addr (r + 1) w
      = (some (w.rx (w.pos + 1)),
         w.advance 2 (read_frame addr (w.rx w.pos) (w.rx (w.pos + 1))
           ++ if CC1101_SPI_MAX_RETRIES - (r + 1) > 0 then
                [Event.log (Diag.read_register_retry_ok reg.code
                  (CC1101_SPI_MAX_RETRIES - (r + 1) + 1))]
              else [])) := by
  by_cases ha : CC1101_SPI_MAX_RETRIES - (r + 1) > 0 <;>
  simp [read_register_loop, enable, transfer_byte, disable, log, hok, ha,
    World.advance, read_frame]

theorem read_register_loop_fails (reg : CC1101Register) (addr : Byte) (k r : Nat) :
    ∀ w : World, (∀ i, i < k → w.rx (w.pos + 2 * i) = 0xFF) →
    read_register_loop reg addr (k + r) w
      = read_register_loop reg addr r (w.advance (2 * k) (failed_reads addr w k)) := by
  induction k with
  | zero => intro w _; simp [failed_reads, World.advance_zero]
  | succ k ih =>
    intro w hfail
    have h0 : w.rx w.pos = 0xFF := by simpa using hfail 0 (Nat.succ_pos k)
    rw [show k + 1 + r = (k + r) + 1 by omega, read_register_loop_fail reg addr _ w h0, ih]
    · rw [World.advance_advance, ← failed_reads_succ, show 2 + 2 * k = 2 * (k + 1) by omega]
    · intro i hi
      have := hfail (i + 1) (by omega)
      simpa [World.advance, Nat.mul_succ, Nat.add_assoc, Nat.add_comm 2] using this


theorem selects_failed_reads (addr : Byte) (w : World) (k : Nat) :
    selects (failed_reads addr w k) = k := by
  induction k with
  | zero => simp [failed_reads, selects]
  | succ k ih =>
    simp only [failed_reads, selects] at ih ⊢
    rw [List.range_succ, List.flatMap_append, List.count_append, ih]
    simp [read_frame]

theorem deselects_failed_reads (addr : Byte) (w : World) (k : Nat) :
    deselects (failed_reads addr w k) = k := by
  induction k with
  | zero => simp [failed_reads, deselects]
  | succ k ih =>
    simp only [failed_reads, deselects] at ih ⊢
    rw [List.range_succ, List.flatMap_append, List.count_append, ih]
    simp [read_frame]

/-- What `read_register` does from line 30 on when attempt `k + 1` is the
first to read back a status other than `0xFF`. -/
theorem read_register_from_ok (reg : CC1101Register) (addr : Byte) (k : Nat) (w : World)
    (hk : k < CC1101_SPI_MAX_RETRIES)
    (hfail : ∀ i, i < k → w.rx (w.pos + 2 * i) = 0xFF)
    (hok : w.rx (w.pos + 2 * k) ≠ 0xFF) :
    read_register_from reg addr w
      = (w.rx (w.pos + 2 * k + 1),
         w.advance (2 * (k + 1))
           (failed_reads addr w k
             ++ read_frame addr (w.rx (w.pos + 2 * k)) (w.rx (w.pos + 2 * k + 1))
             ++ if k > 0 then [Event.log (Diag.read_register_retry_ok reg.code (k + 1))]
                else [])) := by
  have hsplit : CC1101_SPI_MAX_RETRIES = k + ((CC1101_SPI_MAX_RETRIES - (k + 1)) + 1) := by
    omega
  have hatt : CC1101_SPI_MAX_RETRIES - (CC1101_SPI_MAX_RETRIES - (k + 1) + 1) = k := by
    omega
  unfold read_register_from
  rw [hsplit, read_register_loop_fails reg addr k _ w hfail,
    read_register_loop_ok reg addr _ _ (by simpa [World.advance] using hok), hatt]
  simp [World.advance_advance, List.append_assoc, World.advance, Nat.mul_succ, Nat.add_assoc]


/-- C1: when the first `k < 5` attempts of `read_register` read back status
`0xFF` and attempt `k + 1` reads back another status, the call returns the
data byte of attempt `k + 1` and makes exactly `k + 1` transactions: `k`
failed ones, each followed by the retry delay, then the successful one. -/
theorem read_register_returns_first_valid_data (h : Header) (reg : CC1101Register)
    (k : Nat) (w : World) (hk : k < CC1101_SPI_MAX_RETRIES)
    (hfail : ∀ i, i < k → w.rx (w.pos + 2 * i) = 0xFF)
    (hok : w.rx (w.pos + 2 * k) ≠ 0xFF) :
    (read_register h reg w).1 = w.rx (w.pos + 2 * k + 1)
    ∧ (read_register h reg w).2.trace
        = w.trace ++
          (failed_reads (reg.code ||| h.CC1101_READ_SINGLE) w k
            ++ read_frame (reg.code ||| h.CC1101_READ_SINGLE)
                 (w.rx (w.pos + 2 * k)) (w.rx (w.pos + 2 * k + 1))
            ++ if k > 0 then [Event.log (Diag.read_register_retry_ok reg.code (k + 1))]
               else [])
    ∧ selects ((read_register h reg w).2.since w) = k + 1
    ∧ deselects ((read_register h reg w).2.since w) = k + 1 := by
  have key : read_register h reg w = _ :=
    read_register_from_ok reg (reg.code ||| h.CC1101_READ_SINGLE) k w hk hfail hok
  rw [key]
  refine ⟨rfl, rfl, ?_, ?_⟩
  · rw [World.since_advance]
    unfold selects
    rw [List.count_append, List.count_append]
    have := selects_failed_reads (reg.code ||| h.CC1101_READ_SINGLE) w k
    unfold selects at this
    rw [this]
    by_cases h0 : k > 0 <;> simp [read_frame, h0]
  · rw [World.since_advance]
    unfold deselects
    rw [List.count_append, List.count_append]
    have := deselects_failed_reads (reg.code ||| h.CC1101_READ_SINGLE) w k
    unfold deselects at this
    rw [this]
    by_cases h0 : k > 0 <;> simp [read_frame, h0]

theorem read_register_returns_first_valid_data_witness :
    (2 < CC1101_SPI_MAX_RETRIES
      ∧ (∀ i, i < 2 → sample_two_ff.rx (sample_two_ff.pos + 2 * i) = 0xFF)
      ∧ sample_two_ff.rx (sample_two_ff.pos + 2 * 2) ≠ 0xFF)
    ∧ (read_register sample_header ⟨0x31⟩ sample_two_ff).1 = 0x55
    ∧ selects ((read_register sample_header ⟨0x31⟩ sample_two_ff).2.since sample_two_ff)
        = 3 :=
  ⟨⟨by decide, by decide, by decide⟩,
   (read_register_returns_first_valid_data sample_header ⟨0x31⟩ 2 sample_two_ff
      (by decide) (by decide) (by decide)).1,
   (read_register_returns_first_valid_data sample_header ⟨0x31⟩ 2 sample_two_ff
      (by decide) (by decide) (by decide)).2.2.1⟩

theorem read_status_loop_fail (status : CC1101Status) (addr : Byte) (r : Nat) (w : World)
    (hff : w.rx w.pos = 0xFF) :
    read_status_loop status addr (r + 1) w
      = read_status_loop status addr r
          (w.advance 2 (read_frame addr 0xFF (w.rx (w.pos + 1))
            ++ [Event.delay CC1101_SPI_RETRY_DELAY_US])) := by
  simp [read_status_loop, enable, transfer_byte, disable, delayMicroseconds, hff,
    World.advance, read_frame]

theorem read_status_loop_ok (status : CC1101Status) (addr : Byte) (r : Nat) (w : World)
    (hok : w.rx w.pos ≠ 0xFF) :
    read_status_loop status addr (r + 1) w
      = (some (w.rx (w.pos + 1)),
         w.advance 2 (read_frame addr (w.rx w.pos) (w.rx (w.pos + 1))
           ++ if CC1101_SPI_MAX_RETRIES - (r + 1) > 0 then
                [Event.log (Diag.read_status_retry_ok status.code
                  (CC1101_SPI_MAX_RETRIES - (r + 1) + 1))]
              else [])) := by
  by_cases ha : CC1101_SPI_MAX_RETRIES - (r + 1) > 0 <;>
  simp [read_status_loop, enable, transfer_byte, disable, log, hok, ha,
    World.advance, read_frame]

theorem read_status_loop_fails (status : CC1101Status) (addr : Byte) (k r : Nat) :
    ∀ w : World, (∀ i, i < k → w.rx (w.pos + 2 * i) = 0xFF) →
    read_status_loop status addr (k + r) w
      = read_status_loop status addr r (w.advance (2 * k) (failed_reads addr w k)) := by
  induction k with
  | zero => intro w _; simp [failed_reads, World.advance_zero]
  | succ k ih =>
    intro w hfail
    have h0 : w.rx w.pos = 0xFF := by simpa using hfail 0 (Nat.succ_pos k)
    rw [show k + 1 + r = (k + r) + 1 by omega, read_status_loop_fail status addr _ w h0, ih]
    · rw [World.advance_advance, ← failed_reads_succ, show 2 + 2 * k = 2 * (k + 1) by omega]
    · intro i hi
      have := hfail (i + 1) (by omega)
      simpa [World.advance, Nat.mul_succ, Nat.add_assoc, Nat.add_comm 2] using this

theorem failed_strobes_succ (addr : Byte) (k : Nat) :
    failed_strobes addr (k + 1)
      = strobe_frame addr 0xFF ++ [Event.delay CC1101_SPI_RETRY_DELAY_US]
        ++ failed_strobes addr k := by
  simp only [failed_strobes, List.range_succ_eq_map, List.flatMap_cons, List.flatMap_map]

theorem send_strobe_loop_fail (strobe : CC1101Strobe) (addr : Byte) (r : Nat) (st : Byte)
    (w : World) (hff : w.rx w.pos = 0xFF) :
    send_strobe_loop strobe addr (r + 1) st w
      = send_strobe_loop strobe addr r 0xFF
          (w.advance 1 (strobe_frame addr 0xFF
            ++ [Event.delay CC1101_SPI_RETRY_DELAY_US])) := by
  simp [send_strobe_loop, enable, transfer_byte, disable, delayMicroseconds, hff,
    World.advance, strobe_frame]

theorem send_strobe_loop_ok (strobe : CC1101Strobe) (addr : Byte) (r : Nat) (st : Byte)
    (w : World) (hok : w.rx w.pos ≠ 0xFF) :
    send_strobe_loop strobe addr (r + 1) st w
      = (some (w.rx w.pos), w.rx w.pos,
         w.advance 1 (strobe_frame addr (w.rx w.pos)
           ++ if CC1101_SPI_MAX_RETRIES - (r + 1) > 0 then
                [Event.log (Diag.send_strobe_retry_ok strobe.code
                  (CC1101_SPI_MAX_RETRIES - (r + 1) + 1))]
              else [])) := by
  by_cases ha : CC1101_SPI_MAX_RETRIES - (r + 1) > 0 <;>
  simp [send_strobe_loop, enable, transfer_byte, disable, log, hok, ha,
    World.advance, strobe_frame]

theorem send_strobe_loop_fails (strobe : CC1101Strobe) (addr : Byte) (k r : Nat) :
    ∀ (st : Byte) (w : World), (∀ i, i < k → w.rx (w.pos + i) = 0xFF) →
    send_strobe_loop strobe addr (k + r) st w
      = send_strobe_loop strobe addr r (if k = 0 then st else 0xFF)
          (w.advance k (failed_strobes addr k)) := by
  induction k with
  | zero => intro st w _; simp [failed_strobes, World.advance_zero]
  | succ k ih =>
    intro st w hfail
    have h0 : w.rx w.pos = 0xFF := by simpa using hfail 0 (Nat.succ_pos k)
    rw [show k + 1 + r = (k + r) + 1 by omega, send_strobe_loop_fail strobe addr _ st w h0, ih]
    · rw [World.advance_advance, ← failed_strobes_succ, show 1 + k = k + 1 by omega]
      simp
    · intro i hi
      have := hfail (i + 1) (by omega)
      simpa [World.advance, Nat.add_assoc, Nat.add_comm 1] using this

theorem World.since_of_trace (w w0 : World) (es : List Event)
    (h : w.trace = w0.trace ++ es) : w.since w0 = es := by
  simp [World.since, h]

theorem report_exhausted_trace (d : Diag) (w : World) :
    (report_exhausted d w).trace = w.trace ++ warning_events d w := by
  unfold report_exhausted should_log_spi_ff_warning_ warning_events
  simp only [millis]
  by_cases hp : (w.clock w.tick % 2 ^ 32 + 2 ^ 32 - w.last_warn_ms) % 2 ^ 32 ≥ 1000
  · by_cases hs : w.suppressed > 0
    · simp only [hp, hs, if_true, log]
      simp
    · simp only [hp, hs, if_true, if_false, log]
      simp
  · simp only [hp, if_false]
    simp

theorem bus_warning_events (d : Diag) (w : World) : bus (warning_events d w) = [] := by
  unfold warning_events bus
  split_ifs <;> simp [Event.is_bus]

theorem selects_eq_selects_bus (t : List Event) : selects t = selects (bus t) := by
  unfold selects bus
  induction t with
  | nil => rfl
  | cons e t ih =>
    cases e <;> simp [List.filter_cons, Event.is_bus, List.count_cons]

theorem deselects_eq_deselects_bus (t : List Event) : deselects t = deselects (bus t) := by
  unfold deselects bus
  induction t with
  | nil => rfl
  | cons e t ih =>
    cases e <;> simp [List.filter_cons, Event.is_bus, List.count_cons]

theorem bus_append (s t : List Event) : bus (s ++ t) = bus s ++ bus t := by
  simp [bus]

theorem bus_failed_reads (addr : Byte) (w : World) (k : Nat) :
    bus (failed_reads addr w k)
      = (List.range k).flatMap fun i => read_frame addr 0xFF (w.rx (w.pos + 2 * i + 1)) := by
  induction k with
  | zero => simp [failed_reads, bus]
  | succ k ih =>
    simp only [failed_reads] at ih ⊢
    rw [List.range_succ, List.flatMap_append, List.flatMap_append, bus_append, ih]
    simp [bus, read_frame, Event.is_bus]

theorem bus_failed_strobes (addr : Byte) (k : Nat) :
    bus (failed_strobes addr k)
      = (List.range k).flatMap fun _ => strobe_frame addr 0xFF := by
  induction k with
  | zero => simp [failed_strobes, bus]
  | succ k ih =>
    simp only [failed_strobes] at ih ⊢
    rw [List.range_succ, List.flatMap_append, List.flatMap_append, bus_append, ih]
    simp [bus, strobe_frame, Event.is_bus]

theorem selects_read_frames (addr : Byte) (f : Nat → Byte × Byte) (k : Nat) :
    selects ((List.range k).flatMap fun i => read_frame addr (f i).1 (f i).2) = k
    ∧ deselects ((List.range k).flatMap fun i => read_frame addr (f i).1 (f i).2) = k := by
  induction k with
  | zero => simp [selects, deselects]
  | succ k ih =>
    unfold selects deselects at ih ⊢
    rw [List.range_succ, List.flatMap_append, List.count_append, List.count_append,
      ih.1, ih.2]
    simp [read_frame]

theorem selects_strobe_frames (addr : Byte) (f : Nat → Byte) (k : Nat) :
    selects ((List.range k).flatMap fun i => strobe_frame addr (f i)) = k
    ∧ deselects ((List.range k).flatMap fun i => strobe_frame addr (f i)) = k := by
  induction k with
  | zero => simp [selects, deselects]
  | succ k ih =>
    unfold selects deselects at ih ⊢
    rw [List.range_succ, List.flatMap_append, List.count_append, List.count_append,
      ih.1, ih.2]
    simp [strobe_frame]

/-- What `read_register` does from line 30 on when all attempts read back
status `0xFF`. -/
theorem read_register_from_exhausted (reg : CC1101Register) (addr : Byte) (w : World)
    (hfail : ∀ i, i < CC1101_SPI_MAX_RETRIES → w.rx (w.pos + 2 * i) = 0xFF) :
    read_register_from reg addr w
      = (0xFF, report_exhausted (Diag.read_register_ff reg.code)
          (w.advance (2 * CC1101_SPI_MAX_RETRIES)
            (failed_reads addr w CC1101_SPI_MAX_RETRIES))) := by
  have e := read_register_loop_fails reg addr CC1101_SPI_MAX_RETRIES 0 w hfail
  rw [Nat.add_zero] at e
  unfold read_register_from
  rw [e]
  simp only [read_register_loop, report_exhausted]
  split <;> rfl

/-- What `read_status` does when all attempts read back status `0xFF`. -/
theorem read_status_exhausted (h : Header) (status : CC1101Status) (w : World)
    (hfail : ∀ i, i < CC1101_SPI_MAX_RETRIES → w.rx (w.pos + 2 * i) = 0xFF) :
    read_status h status w
      = (0xFF, report_exhausted (Diag.read_status_ff status.code)
          (w.advance (2 * CC1101_SPI_MAX_RETRIES)
            (failed_reads (status.code ||| h.CC1101_READ_BURST) w
              CC1101_SPI_MAX_RETRIES))) := by
  have e := read_status_loop_fails status (status.code ||| h.CC1101_READ_BURST)
    CC1101_SPI_MAX_RETRIES 0 w hfail
  rw [Nat.add_zero] at e
  unfold read_status
  simp only [e]
  simp only [read_status_loop, report_exhausted]
  split <;> rfl

/-- What `send_strobe` does when all attempts read back `0xFF`. -/
theorem send_strobe_exhausted (strobe : CC1101Strobe) (w : World)
    (hfail : ∀ i, i < CC1101_SPI_MAX_RETRIES → w.rx (w.pos + i) = 0xFF) :
    send_strobe strobe w
      = (0xFF, report_exhausted (Diag.send_strobe_ff strobe.code)
          (w.advance CC1101_SPI_MAX_RETRIES
            (failed_strobes strobe.code CC1101_SPI_MAX_RETRIES))) := by
  have e := send_strobe_loop_fails strobe strobe.code CC1101_SPI_MAX_RETRIES 0 0xFF w hfail
  rw [Nat.add_zero] at e
  unfold send_strobe
  simp only [e]
  simp only [send_strobe_loop, report_exhausted]
  split <;> simp [CC1101_SPI_MAX_RETRIES]

theorem report_exhausted_since (d : Diag) (w : World) (n : Nat) (es : List Event) :
    (report_exhausted d (w.advance n es)).since w
      = es ++ warning_events d (w.advance n es) := by
  apply World.since_of_trace
  rw [report_exhausted_trace]
  simp [World.advance]

theorem bus_report_exhausted_since (d : Diag) (w : World) (n : Nat) (es : List Event) :
    bus ((report_exhausted d (w.advance n es)).since w) = bus es := by
  rw [report_exhausted_since, bus_append, bus_warning_events, List.append_nil]

/-- C2: when every attempt reads back status `0xFF`, whatever the data
bytes, each of `read_register`, `read_status` and `send_strobe` makes exactly
`CC1101_SPI_MAX_RETRIES = 5` transactions, all with the same address byte, and
returns `0xFF`. -/
theorem exhausted_call_makes_five_transactions (h : Header) (reg : CC1101Register)
    (status : CC1101Status) (strobe : CC1101Strobe) (w : World) :
    ((∀ i, i < CC1101_SPI_MAX_RETRIES → w.rx (w.pos + 2 * i) = 0xFF) →
      (read_register h reg w).1 = 0xFF
      ∧ bus ((read_register h reg w).2.since w)
          = (List.range 5).flatMap (fun i =>
              read_frame (reg.code ||| h.CC1101_READ_SINGLE) 0xFF (w.rx (w.pos + 2 * i + 1)))
      ∧ selects ((read_register h reg w).2.since w) = 5
      ∧ deselects ((read_register h reg w).2.since w) = 5)
    ∧ ((∀ i, i < CC1101_SPI_MAX_RETRIES → w.rx (w.pos + 2 * i) = 0xFF) →
      (read_status h status w).1 = 0xFF
      ∧ bus ((read_status h status w).2.since w)
          = (List.range 5).flatMap (fun i =>
              read_frame (status.code ||| h.CC1101_READ_BURST) 0xFF (w.rx (w.pos + 2 * i + 1)))
      ∧ selects ((read_status h status w).2.since w) = 5
      ∧ deselects ((read_status h status w).2.since w) = 5)
    ∧ ((∀ i, i < CC1101_SPI_MAX_RETRIES → w.rx (w.pos + i) = 0xFF) →
      (send_strobe strobe w).1 = 0xFF
      ∧ bus ((send_strobe strobe w).2.since w)
          = (List.range 5).flatMap (fun _ => strobe_frame strobe.code 0xFF)
      ∧ selects ((send_strobe strobe w).2.since w) = 5
      ∧ deselects ((send_strobe strobe w).2.since w) = 5) := by
  refine ⟨fun hfail => ?_, fun hfail => ?_, fun hfail => ?_⟩
  · have key : read_register h reg w = _ :=
      read_register_from_exhausted reg (reg.code ||| h.CC1101_READ_SINGLE) w hfail
    have hb : bus ((read_register h reg w).2.since w)
        = (List.range 5).flatMap (fun i =>
            read_frame (reg.code ||| h.CC1101_READ_SINGLE) 0xFF (w.rx (w.pos + 2 * i + 1))) := by
      rw [key, bus_report_exhausted_since, bus_failed_reads]
      rfl
    refine ⟨by rw [key], hb, ?_, ?_⟩
    · rw [selects_eq_selects_bus, hb]
      exact (selects_read_frames _ (fun i => (0xFF, w.rx (w.pos + 2 * i + 1))) 5).1
    · rw [deselects_eq_deselects_bus, hb]
      exact (selects_read_frames _ (fun i => (0xFF, w.rx (w.pos + 2 * i + 1))) 5).2
  · have key := read_status_exhausted h status w hfail
    have hb : bus ((read_status h status w).2.since w)
        = (List.range 5).flatMap (fun i =>
            read_frame (status.code ||| h.CC1101_READ_BURST) 0xFF (w.rx (w.pos + 2 * i + 1))) := by
      rw [key, bus_report_exhausted_since, bus_failed_reads]
      rfl
    refine ⟨by rw [key], hb, ?_, ?_⟩
    · rw [selects_eq_selects_bus, hb]
      exact (selects_read_frames _ (fun i => (0xFF, w.rx (w.pos + 2 * i + 1))) 5).1
    · rw [deselects_eq_deselects_bus, hb]
      exact (selects_read_frames _ (fun i => (0xFF, w.rx (w.pos + 2 * i + 1))) 5).2
  · have key := send_strobe_exhausted strobe w hfail
    have hb : bus ((send_strobe strobe w).2.since w)
        = (List.range 5).flatMap (fun _ => strobe_frame strobe.code 0xFF) := by
      rw [key, bus_report_exhausted_since, bus_failed_strobes]
      rfl
    refine ⟨by rw [key], hb, ?_, ?_⟩
    · rw [selects_eq_selects_bus, hb]
      exact (selects_strobe_frames _ (fun _ => 0xFF) 5).1
    · rw [deselects_eq_deselects_bus, hb]
      exact (selects_strobe_frames _ (fun _ => 0xFF) 5).2

theorem exhausted_call_makes_five_transactions_witness :
    ((∀ i, i < CC1101_SPI_MAX_RETRIES →
        sample_ff_status.rx (sample_ff_status.pos + 2 * i) = 0xFF)
      ∧ (read_register sample_header ⟨0x31⟩ sample_ff_status).1 = 0xFF
      ∧ selects ((read_register sample_header ⟨0x31⟩ sample_ff_status).2.since
          sample_ff_status) = 5
      ∧ (read_status sample_header ⟨0x34⟩ sample_ff_status).1 = 0xFF
      ∧ selects ((read_status sample_header ⟨0x34⟩ sample_ff_status).2.since
          sample_ff_status) = 5)
    ∧ ((∀ i, i < CC1101_SPI_MAX_RETRIES → sample_all_ff.rx (sample_all_ff.pos + i) = 0xFF)
      ∧ (send_strobe ⟨0x3D⟩ sample_all_ff).1 = 0xFF
      ∧ selects ((send_strobe ⟨0x3D⟩ sample_all_ff).2.since sample_all_ff) = 5) :=
  have hs : ∀ i, i < CC1101_SPI_MAX_RETRIES →
      sample_ff_status.rx (sample_ff_status.pos + 2 * i) = 0xFF := by decide
  have ha : ∀ i, i < CC1101_SPI_MAX_RETRIES →
      sample_all_ff.rx (sample_all_ff.pos + i) = 0xFF := by decide
  have r := exhausted_call_makes_five_transactions sample_header ⟨0x31⟩ ⟨0x34⟩ ⟨0x3D⟩
    sample_ff_status
  have s := exhausted_call_makes_five_transactions sample_header ⟨0x31⟩ ⟨0x34⟩ ⟨0x3D⟩
    sample_all_ff
  ⟨⟨hs, (r.1 hs).1, (r.1 hs).2.2.1, (r.2.1 hs).1, (r.2.1 hs).2.2.1⟩,
   ⟨ha, (s.2.2 ha).1, (s.2.2 ha).2.2.1⟩⟩

/-- C3: with `length == 0` each of `read_burst`, `write_burst`,
`read_rx_fifo` and `write_tx_fifo` returns at once: the world (bus, trace,
limiter statics) and the caller's buffer are exactly as before, so no call to
the SPI device is made. -/
theorem zero_length_is_noop (h : Header) (reg : CC1101Register) (buffer : List Byte)
    (w : World) :
    read_burst h reg buffer 0 w = (buffer, w)
    ∧ write_burst h reg buffer 0 w = w
    ∧ read_rx_fifo h buffer 0 w = (buffer, w)
    ∧ write_tx_fifo h buffer 0 w = w
    ∧ (read_burst h reg buffer 0 w).2.since w = []
    ∧ (write_burst h reg buffer 0 w).since w = []
    ∧ (read_rx_fifo h buffer 0 w).2.since w = []
    ∧ (write_tx_fifo h buffer 0 w).since w = [] := by
  simp [read_burst, write_burst, read_rx_fifo, write_tx_fifo, World.since]

theorem write_register_eq (reg : CC1101Register) (value : Byte) (w : World) :
    write_register reg value w
      = w.advance 2 [Event.select, Event.exchange reg.code (w.rx w.pos),
          Event.exchange value (w.rx (w.pos + 1)), Event.deselect] := by
  simp [write_register, enable, transfer_byte, disable, World.advance]

/-- C4: `write_register(r, v)` makes one transaction: select, the register
code as it is, the value, deselect. What it puts on the bus is the same in
every world, whatever the bus reads back and whatever happened before, so a
repeated call sends the same bytes again. -/
theorem write_register_framing (reg : CC1101Register) (value : Byte) (w : World) :
    (write_register reg value w).trace
      = w.trace ++ [Event.select, Event.exchange reg.code (w.rx w.pos),
          Event.exchange value (w.rx (w.pos + 1)), Event.deselect]
    ∧ sent ((write_register reg value w).since w)
        = [Sent.select, Sent.byte reg.code, Sent.byte value, Sent.deselect]
    ∧ (∀ w' : World, sent ((write_register reg value w').since w')
        = sent ((write_register reg value w).since w))
    ∧ sent ((write_register reg value (write_register reg value w)).since
          (write_register reg value w))
        = sent ((write_register reg value w).since w) := by
  have hs : ∀ v : World, sent ((write_register reg value v).since v)
      = [Sent.select, Sent.byte reg.code, Sent.byte value, Sent.deselect] := by
    intro v
    rw [write_register_eq, World.since_advance]
    rfl
  refine ⟨?_, hs w, fun w' => ?_, ?_⟩
  · rw [write_register_eq]; rfl
  · rw [hs w', hs w]
  · rw [hs (write_register reg value w), hs w]

theorem all_ff_or_first_valid (f : Nat → Byte) (m : Nat) :
    (∀ i, i < m → f i = 0xFF)
    ∨ ∃ k, k < m ∧ (∀ i, i < k → f i = 0xFF) ∧ f k ≠ 0xFF := by
  induction m with
  | zero => left; intro i hi; omega
  | succ m ih =>
    rcases ih with hall | ⟨k, hk, hbefore, hne⟩
    · by_cases hm : f m = 0xFF
      · left
        intro i hi
        rcases Nat.lt_succ_iff_lt_or_eq.mp hi with h | h
        · exact hall i h
        · rw [h]; exact hm
      · right
        exact ⟨m, Nat.lt_succ_self m, hall, hm⟩
    · right
      exact ⟨k, Nat.lt_succ_of_lt hk, hbefore, hne⟩

theorem read_frames_snoc (addr : Byte) (f g : Nat → Byte) (k : Nat) :
    ((List.range (k + 1)).flatMap fun i => read_frame addr (f i) (g i))
      = ((List.range k).flatMap fun i => read_frame addr (f i) (g i))
        ++ read_frame addr (f k) (g k) := by
  rw [List.range_succ, List.flatMap_append]
  simp

theorem read_frames_congr (addr : Byte) (f f' g : Nat → Byte) (k : Nat)
    (hf : ∀ i, i < k → f i = f' i) :
    ((List.range k).flatMap fun i => read_frame addr (f i) (g i))
      = (List.range k).flatMap fun i => read_frame addr (f' i) (g i) := by
  apply List.flatMap_congr
  intro i hi
  rw [hf i (List.mem_range.mp hi)]

theorem bus_read_frame (addr status data : Byte) :
    bus (read_frame addr status data) = read_frame addr status data := by
  simp [bus, read_frame, Event.is_bus]

theorem bus_retry_note (k : Nat) (d : Diag) :
    bus (if k > 0 then [Event.log d] else []) = [] := by
  split_ifs <;> simp [bus, Event.is_bus]

/-- The bus trace of a read that succeeds at attempt `k + 1`. -/
theorem bus_successful_read (addr : Byte) (w : World) (k : Nat) (d : Diag)
    (hfail : ∀ i, i < k → w.rx (w.pos + 2 * i) = 0xFF) :
    bus (failed_reads addr w k
          ++ read_frame addr (w.rx (w.pos + 2 * k)) (w.rx (w.pos + 2 * k + 1))
          ++ if k > 0 then [Event.log d] else [])
      = (List.range (k + 1)).flatMap fun i =>
          read_frame addr (w.rx (w.pos + 2 * i)) (w.rx (w.pos + 2 * i + 1)) := by
  rw [bus_append, bus_append, bus_retry_note, bus_read_frame, bus_failed_reads,
    List.append_nil,
    read_frames_snoc addr (fun i => w.rx (w.pos + 2 * i)) (fun i => w.rx (w.pos + 2 * i + 1)),
    read_frames_congr addr (fun _ => 0xFF) (fun i => w.rx (w.pos + 2 * i))
      (fun i => w.rx (w.pos + 2 * i + 1)) k (fun i hi => (hfail i hi).symm)]

/-- C5: every attempt of `read_register(r)` is the transaction select,
`address(r) | READ_SINGLE` (reading back the status), `0x00` (reading back
the data), deselect. The call makes `n` attempts, `1 ≤ n ≤ 5`; an attempt is
followed by another one only when its status was `0xFF`; the value returned
is the data byte of the last attempt when that attempt's status is not
`0xFF`, and `0xFF` after five attempts with status `0xFF`. -/
theorem read_register_attempt_framing (h : Header) (reg : CC1101Register) (w : World) :
    ∃ n, 1 ≤ n ∧ n ≤ CC1101_SPI_MAX_RETRIES
      ∧ bus ((read_register h reg w).2.since w)
          = (List.range n).flatMap (fun i =>
              read_frame (reg.code ||| h.CC1101_READ_SINGLE)
                (w.rx (w.pos + 2 * i)) (w.rx (w.pos + 2 * i + 1)))
      ∧ (∀ i, i + 1 < n → w.rx (w.pos + 2 * i) = 0xFF)
      ∧ ((w.rx (w.pos + 2 * (n - 1)) ≠ 0xFF
            ∧ (read_register h reg w).1 = w.rx (w.pos + 2 * (n - 1) + 1))
         ∨ (w.rx (w.pos + 2 * (n - 1)) = 0xFF ∧ n = CC1101_SPI_MAX_RETRIES
            ∧ (read_register h reg w).1 = 0xFF)) := by
  rcases all_ff_or_first_valid (fun i => w.rx (w.pos + 2 * i)) CC1101_SPI_MAX_RETRIES with
    hall | ⟨k, hk, hfail, hok⟩
  · have key : read_register h reg w = _ :=
      read_register_from_exhausted reg (reg.code ||| h.CC1101_READ_SINGLE) w hall
    refine ⟨CC1101_SPI_MAX_RETRIES, by decide, le_refl _, ?_, ?_, ?_⟩
    · rw [key, bus_report_exhausted_since, bus_failed_reads]
      exact read_frames_congr _ (fun _ => 0xFF) (fun i => w.rx (w.pos + 2 * i))
        (fun i => w.rx (w.pos + 2 * i + 1)) _ (fun i hi => (hall i hi).symm)
    · intro i hi
      exact hall i (by omega)
    · right
      exact ⟨hall _ (by decide), rfl, by rw [key]⟩
  · have key : read_register h reg w = _ :=
      read_register_from_ok reg (reg.code ||| h.CC1101_READ_SINGLE) k w hk hfail hok
    refine ⟨k + 1, by omega, hk, ?_, ?_, ?_⟩
    · rw [key, World.since_advance]
      exact bus_successful_read _ w k _ hfail
    · intro i hi
      exact hfail i (by omega)
    · left
      exact ⟨hok, by rw [key]; rfl⟩

/-- What `read_status` does when attempt `k + 1` is the first to read back a
status other than `0xFF`. -/
theorem read_status_ok (h : Header) (status : CC1101Status) (k : Nat) (w : World)
    (hk : k < CC1101_SPI_MAX_RETRIES)
    (hfail : ∀ i, i < k → w.rx (w.pos + 2 * i) = 0xFF)
    (hok : w.rx (w.pos + 2 * k) ≠ 0xFF) :
    read_status h status w
      = (w.rx (w.pos + 2 * k + 1),
         w.advance (2 * (k + 1))
           (failed_reads (status.code ||| h.CC1101_READ_BURST) w k
             ++ read_frame (status.code ||| h.CC1101_READ_BURST)
                  (w.rx (w.pos + 2 * k)) (w.rx (w.pos + 2 * k + 1))
             ++ if k > 0 then [Event.log (Diag.read_status_retry_ok status.code (k + 1))]
                else [])) := by
  have hsplit : CC1101_SPI_MAX_RETRIES = k + ((CC1101_SPI_MAX_RETRIES - (k + 1)) + 1) := by
    omega
  have hatt : CC1101_SPI_MAX_RETRIES - (CC1101_SPI_MAX_RETRIES - (k + 1) + 1) = k := by
    omega
  have e := read_status_loop_fails status (status.code ||| h.CC1101_READ_BURST) k
    ((CC1101_SPI_MAX_RETRIES - (k + 1)) + 1) w hfail
  rw [← hsplit, read_status_loop_ok status _ _ _ (by simpa [World.advance] using hok),
    hatt] at e
  unfold read_status
  simp only [e]
  simp [World.advance_advance, List.append_assoc, World.advance, Nat.mul_succ, Nat.add_assoc]

theorem map_as_read_register_failed_reads (reg : CC1101Register) (addr : Byte) (w : World)
    (k : Nat) :
    (failed_reads addr w k).map (as_read_register reg) = failed_reads addr w k := by
  unfold failed_reads
  rw [List.map_flatMap]
  simp [read_frame, as_read_register]

theorem map_as_read_register_warning_events (reg : CC1101Register) (c : Byte) (w : World) :
    (warning_events (Diag.read_status_ff c) w).map (as_read_register reg)
      = warning_events (Diag.read_register_ff reg.code) w := by
  unfold warning_events
  split_ifs <;> simp [as_read_register]

theorem timed_bus_map_as_read_register (reg : CC1101Register) (t : List Event) :
    timed_bus (t.map (as_read_register reg)) = timed_bus t := by
  unfold timed_bus
  induction t with
  | nil => rfl
  | cons e t ih =>
    rcases e with _ | _ | _ | _ | _ | d
    all_goals try (simp [as_read_register, Event.is_log, List.filter_cons] at ih ⊢; exact ih)
    cases d <;> (simp [as_read_register, Event.is_log, List.filter_cons] at ih ⊢; exact ih)

theorem report_exhausted_state (d d' : Diag) (w : World) :
    (report_exhausted d w).rx = (report_exhausted d' w).rx
    ∧ (report_exhausted d w).pos = (report_exhausted d' w).pos
    ∧ (report_exhausted d w).clock = (report_exhausted d' w).clock
    ∧ (report_exhausted d w).tick = (report_exhausted d' w).tick
    ∧ (report_exhausted d w).last_warn_ms = (report_exhausted d' w).last_warn_ms
    ∧ (report_exhausted d w).suppressed = (report_exhausted d' w).suppressed := by
  unfold report_exhausted
  split_ifs <;> simp [log]

theorem bus_map_as_read_register (reg : CC1101Register) (t : List Event) :
    bus (t.map (as_read_register reg)) = bus t := by
  unfold bus
  induction t with
  | nil => rfl
  | cons e t ih =>
    rcases e with _ | _ | _ | _ | _ | d
    all_goals try (simp [as_read_register, Event.is_bus, List.filter_cons] at ih ⊢; exact ih)
    cases d <;> (simp [as_read_register, Event.is_bus, List.filter_cons] at ih ⊢; exact ih)

/-- The two procedures side by side: same value, same cursor and statics,
and traces that differ only in the names of the two log statements. -/
theorem read_status_simulation (h : Header) (status : CC1101Status) (reg : CC1101Register)
    (w : World) :
    ∃ (v : Byte) (wa wb : World) (es : List Event) (n : Nat),
      read_status h status w = (v, wa)
      ∧ read_register_from reg (status.code ||| h.CC1101_READ_BURST) w = (v, wb)
      ∧ wa.trace = w.trace ++ es
      ∧ wb.trace = w.trace ++ es.map (as_read_register reg)
      ∧ wa.pos = wb.pos ∧ wa.tick = wb.tick
      ∧ wa.last_warn_ms = wb.last_warn_ms ∧ wa.suppressed = wb.suppressed
      ∧ 1 ≤ n ∧ n ≤ CC1101_SPI_MAX_RETRIES
      ∧ bus es = (List.range n).flatMap (fun i =>
          read_frame (status.code ||| h.CC1101_READ_BURST)
            (w.rx (w.pos + 2 * i)) (w.rx (w.pos + 2 * i + 1))) := by
  rcases all_ff_or_first_valid (fun i => w.rx (w.pos + 2 * i)) CC1101_SPI_MAX_RETRIES with
    hall | ⟨k, hk, hfail, hok⟩
  · have st := report_exhausted_state (Diag.read_status_ff status.code)
      (Diag.read_register_ff reg.code)
      (w.advance (2 * CC1101_SPI_MAX_RETRIES)
        (failed_reads (status.code ||| h.CC1101_READ_BURST) w CC1101_SPI_MAX_RETRIES))
    refine ⟨0xFF, _, _,
      failed_reads (status.code ||| h.CC1101_READ_BURST) w CC1101_SPI_MAX_RETRIES
        ++ warning_events (Diag.read_status_ff status.code)
            (w.advance (2 * CC1101_SPI_MAX_RETRIES)
              (failed_reads (status.code ||| h.CC1101_READ_BURST) w CC1101_SPI_MAX_RETRIES)),
      CC1101_SPI_MAX_RETRIES, read_status_exhausted h status w hall,
      read_register_from_exhausted reg _ w hall, ?_, ?_, st.2.1, st.2.2.2.1, st.2.2.2.2.1,
      st.2.2.2.2.2, by decide, le_refl _, ?_⟩
    · rw [report_exhausted_trace]
      simp only [World.advance, List.append_assoc]
    · rw [report_exhausted_trace, List.map_append, map_as_read_register_failed_reads,
        map_as_read_register_warning_events]
      simp only [World.advance, List.append_assoc]
    · rw [bus_append, bus_warning_events, List.append_nil, bus_failed_reads]
      exact read_frames_congr _ (fun _ => 0xFF) (fun i => w.rx (w.pos + 2 * i))
        (fun i => w.rx (w.pos + 2 * i + 1)) _ (fun i hi => (hall i hi).symm)
  · refine ⟨_, _, _, _, k + 1, read_status_ok h status k w hk hfail hok,
      read_register_from_ok reg _ k w hk hfail hok, rfl, ?_, rfl, rfl, rfl, rfl,
      by omega, hk, bus_successful_read _ w k _ hfail⟩
    rw [List.map_append, List.map_append, map_as_read_register_failed_reads]
    by_cases h0 : k > 0 <;> simp [World.advance, read_frame, as_read_register, h0]

/-- C6: `read_status(s)` retries like `read_register`. Compared with lines
30-51 of `read_register` run with the address byte `address(s) | READ_BURST`,
it returns the same byte, makes the same calls to the SPI device and the same
delays in the same order, leaves the bus cursor, the clock cursor and the two
limiter statics in the same state, and logs the same statements up to their
names. Every attempt of `read_status(s)` is a read transaction whose first
byte is `address(s) | READ_BURST`. -/
theorem read_status_retries_like_read_register (h : Header) (status : CC1101Status)
    (reg : CC1101Register) (w : World) :
    (read_status h status w).1
        = (read_register_from reg (status.code ||| h.CC1101_READ_BURST) w).1
    ∧ (read_status h status w).2.trace = w.trace ++ (read_status h status w).2.since w
    ∧ (read_register_from reg (status.code ||| h.CC1101_READ_BURST) w).2.trace
        = w.trace ++ ((read_status h status w).2.since w).map (as_read_register reg)
    ∧ bus ((read_status h status w).2.since w)
        = bus ((read_register_from reg (status.code ||| h.CC1101_READ_BURST) w).2.since w)
    ∧ timed_bus ((read_status h status w).2.since w)
        = timed_bus
            ((read_register_from reg (status.code ||| h.CC1101_READ_BURST) w).2.since w)
    ∧ (read_status h status w).2.pos
        = (read_register_from reg (status.code ||| h.CC1101_READ_BURST) w).2.pos
    ∧ (read_status h status w).2.tick
        = (read_register_from reg (status.code ||| h.CC1101_READ_BURST) w).2.tick
    ∧ (read_status h status w).2.last_warn_ms
        = (read_register_from reg (status.code ||| h.CC1101_READ_BURST) w).2.last_warn_ms
    ∧ (read_status h status w).2.suppressed
        = (read_register_from reg (status.code ||| h.CC1101_READ_BURST) w).2.suppressed
    ∧ ∃ n, 1 ≤ n ∧ n ≤ CC1101_SPI_MAX_RETRIES
        ∧ bus ((read_status h status w).2.since w)
            = (List.range n).flatMap (fun i =>
                read_frame (status.code ||| h.CC1101_READ_BURST)
                  (w.rx (w.pos + 2 * i)) (w.rx (w.pos + 2 * i + 1))) := by
  obtain ⟨v, wa, wb, es, n, ha, hb, hta, htb, hpos, htick, hlast, hsup, hn1, hn5, hbus⟩ :=
    read_status_simulation h status reg w
  have sa : wa.since w = es := World.since_of_trace wa w es hta
  have sb : wb.since w = es.map (as_read_register reg) := World.since_of_trace wb w _ htb
  rw [ha, hb]
  show v = v ∧ _
  rw [sa, sb]
  exact ⟨rfl, hta, htb, (bus_map_as_read_register reg es).symm,
    (timed_bus_map_as_read_register reg es).symm, hpos, htick, hlast, hsup,
    n, hn1, hn5, hbus⟩

/-- What `send_strobe` does when attempt `k + 1` is the first to read back a
byte other than `0xFF`. -/
theorem send_strobe_ok (strobe : CC1101Strobe) (k : Nat) (w : World)
    (hk : k < CC1101_SPI_MAX_RETRIES)
    (hfail : ∀ i, i < k → w.rx (w.pos + i) = 0xFF)
    (hok : w.rx (w.pos + k) ≠ 0xFF) :
    send_strobe strobe w
      = (w.rx (w.pos + k),
         w.advance (k + 1)
           (failed_strobes strobe.code k
             ++ strobe_frame strobe.code (w.rx (w.pos + k))
             ++ if k > 0 then [Event.log (Diag.send_strobe_retry_ok strobe.code (k + 1))]
                else [])) := by
  have hsplit : CC1101_SPI_MAX_RETRIES = k + ((CC1101_SPI_MAX_RETRIES - (k + 1)) + 1) := by
    omega
  have hatt : CC1101_SPI_MAX_RETRIES - (CC1101_SPI_MAX_RETRIES - (k + 1) + 1) = k := by
    omega
  have e := send_strobe_loop_fails strobe strobe.code k
    ((CC1101_SPI_MAX_RETRIES - (k + 1)) + 1) 0xFF w hfail
  rw [← hsplit, send_strobe_loop_ok strobe _ _ _ _ (by simpa [World.advance] using hok),
    hatt] at e
  unfold send_strobe
  simp only [e]
  simp [World.advance_advance, List.append_assoc, World.advance, Nat.add_assoc]

theorem strobe_frames_snoc (addr : Byte) (f : Nat → Byte) (k : Nat) :
    ((List.range (k + 1)).flatMap fun i => strobe_frame addr (f i))
      = ((List.range k).flatMap fun i => strobe_frame addr (f i))
        ++ strobe_frame addr (f k) := by
  rw [List.range_succ, List.flatMap_append]
  simp

theorem strobe_frames_congr (addr : Byte) (f f' : Nat → Byte) (k : Nat)
    (hf : ∀ i, i < k → f i = f' i) :
    ((List.range k).flatMap fun i => strobe_frame addr (f i))
      = (List.range k).flatMap fun i => strobe_frame addr (f' i) := by
  apply List.flatMap_congr
  intro i hi
  rw [hf i (List.mem_range.mp hi)]

/-- The bus trace of a strobe that succeeds at attempt `k + 1`. -/
theorem bus_successful_strobe (addr : Byte) (w : World) (k : Nat) (d : Diag)
    (hfail : ∀ i, i < k → w.rx (w.pos + i) = 0xFF) :
    bus (failed_strobes addr k ++ strobe_frame addr (w.rx (w.pos + k))
          ++ if k > 0 then [Event.log d] else [])
      = (List.range (k + 1)).flatMap fun i => strobe_frame addr (w.rx (w.pos + i)) := by
  have hframe : bus (strobe_frame addr (w.rx (w.pos + k)))
      = strobe_frame addr (w.rx (w.pos + k)) := by
    simp [bus, strobe_frame, Event.is_bus]
  rw [bus_append, bus_append, bus_retry_note, hframe, bus_failed_strobes, List.append_nil,
    strobe_frames_snoc addr (fun i => w.rx (w.pos + i)),
    strobe_frames_congr addr (fun _ => 0xFF) (fun i => w.rx (w.pos + i)) k
      (fun i hi => (hfail i hi).symm)]

/-- C7: when the first `k < 5` attempts of `send_strobe(s)` read back `0xFF`
and attempt `k + 1` reads back another byte, the call makes exactly `k + 1`
transactions, each of them select, the command code as it is, deselect, and
returns the byte read back in the last one. -/
theorem send_strobe_returns_first_valid_status (strobe : CC1101Strobe) (k : Nat) (w : World)
    (hk : k < CC1101_SPI_MAX_RETRIES)
    (hfail : ∀ i, i < k → w.rx (w.pos + i) = 0xFF)
    (hok : w.rx (w.pos + k) ≠ 0xFF) :
    (send_strobe strobe w).1 = w.rx (w.pos + k)
    ∧ (send_strobe strobe w).2.trace
        = w.trace ++
          (failed_strobes strobe.code k
            ++ strobe_frame strobe.code (w.rx (w.pos + k))
            ++ if k > 0 then [Event.log (Diag.send_strobe_retry_ok strobe.code (k + 1))]
               else [])
    ∧ bus ((send_strobe strobe w).2.since w)
        = (List.range (k + 1)).flatMap (fun i => strobe_frame strobe.code (w.rx (w.pos + i)))
    ∧ selects ((send_strobe strobe w).2.since w) = k + 1
    ∧ deselects ((send_strobe strobe w).2.since w) = k + 1 := by
  have key := send_strobe_ok strobe k w hk hfail hok
  have hb : bus ((send_strobe strobe w).2.since w)
      = (List.range (k + 1)).flatMap (fun i =>
          strobe_frame strobe.code (w.rx (w.pos + i))) := by
    rw [key, World.since_advance]
    exact bus_successful_strobe _ w k _ hfail
  refine ⟨by rw [key], by rw [key]; rfl, hb, ?_, ?_⟩
  · rw [selects_eq_selects_bus, hb]
    exact (selects_strobe_frames _ (fun i => w.rx (w.pos + i)) (k + 1)).1
  · rw [deselects_eq_deselects_bus, hb]
    exact (selects_strobe_frames _ (fun i => w.rx (w.pos + i)) (k + 1)).2

theorem send_strobe_returns_first_valid_status_witness :
    (2 < CC1101_SPI_MAX_RETRIES
      ∧ (∀ i, i < 2 → sample_strobe_two_ff.rx (sample_strobe_two_ff.pos + i) = 0xFF)
      ∧ sample_strobe_two_ff.rx (sample_strobe_two_ff.pos + 2) ≠ 0xFF)
    ∧ (send_strobe ⟨0x34⟩ sample_strobe_two_ff).1 = 0x1F
    ∧ bus ((send_strobe ⟨0x34⟩ sample_strobe_two_ff).2.since sample_strobe_two_ff)
        = [Event.select, Event.exchange 0x34 0xFF, Event.deselect,
           Event.select, Event.exchange 0x34 0xFF, Event.deselect,
           Event.select, Event.exchange 0x34 0x1F, Event.deselect] :=
  ⟨⟨by decide, by decide, by decide⟩,
   (send_strobe_returns_first_valid_status ⟨0x34⟩ 2 sample_strobe_two_ff
      (by decide) (by decide) (by decide)).1,
   (send_strobe_returns_first_valid_status ⟨0x34⟩ 2 sample_strobe_two_ff
      (by decide) (by decide) (by decide)).2.2.1⟩

theorem write_loop_eq (buffer : List Byte) (length : Nat) (w : World) :
    write_loop buffer length w = w.advance length (payload_exchanges buffer length w) := by
  unfold write_loop payload_exchanges
  induction length with
  | zero => simp [World.advance]
  | succ n ih =>
    rw [List.range_succ, List.foldl_append, ih]
    simp [transfer_byte, World.advance, Nat.add_assoc]

theorem map_range_getD {α : Type} (f : Byte → α) (buffer : List Byte) :
    (List.range buffer.length).map (fun i => f (buffer.getD i 0)) = buffer.map f := by
  induction buffer with
  | nil => rfl
  | cons b t ih =>
    rw [List.length_cons, List.range_succ_eq_map, List.map_cons, List.map_map]
    simp only [List.map_cons]
    congr 1

theorem sent_append (s t : List Event) : sent (s ++ t) = sent s ++ sent t := by
  induction s with
  | nil => rfl
  | cons e s ih => cases e <;> simp [sent, ih]

theorem sent_payload_exchanges (buffer : List Byte) (w : World) :
    sent (payload_exchanges buffer buffer.length w) = buffer.map Sent.byte := by
  rw [← map_range_getD Sent.byte buffer]
  unfold payload_exchanges
  generalize List.range buffer.length = l
  induction l with
  | nil => rfl
  | cons i l ih =>
    simp only [List.map_cons, sent]
    rw [ih]

theorem write_burst_eq (h : Header) (reg : CC1101Register) (buffer : List Byte) (n : Nat)
    (w : World) (hn : 0 < n) :
    write_burst h reg buffer n w
      = w.advance (n + 1)
          ([Event.select, Event.exchange (reg.code ||| h.CC1101_WRITE_BURST) (w.rx w.pos)]
            ++ payload_exchanges buffer n (w.advance 1 [])
            ++ [Event.deselect]) := by
  unfold write_burst
  rw [if_neg (Nat.pos_iff_ne_zero.mp hn)]
  simp only [write_loop_eq]
  simp [enable, transfer_byte, disable, World.advance, payload_exchanges, Nat.add_comm,
    Nat.add_left_comm]

theorem counts_payload_exchanges (buffer : List Byte) (n : Nat) (w : World) :
    exchanges (payload_exchanges buffer n w) = n
    ∧ selects (payload_exchanges buffer n w) = 0
    ∧ deselects (payload_exchanges buffer n w) = 0 := by
  unfold payload_exchanges exchanges selects deselects
  have hl : (List.range n).length = n := List.length_range n
  generalize List.range n = l at hl
  subst hl
  induction l with
  | nil => simp
  | cons i l ih =>
    obtain ⟨h1, h2, h3⟩ := ih
    refine ⟨?_, ?_, ?_⟩
    · rw [List.map_cons, List.countP_cons, h1]; rfl
    · rw [List.map_cons, List.count_cons, h2]; simp
    · rw [List.map_cons, List.count_cons, h3]; simp

/-- C8: with `n > 0` and a buffer of `n` bytes, `write_burst(r, buffer, n)`
makes one transaction: select, `address(r) | WRITE_BURST`, the `n` bytes of
the buffer in order, one exchange each, deselect. This holds whatever the bus
reads back, so there is no retry. The buffer is `const` and not returned. -/
theorem write_burst_framing (h : Header) (reg : CC1101Register) (buffer : List Byte)
    (n : Nat) (w : World) (hn : 0 < n) (hlen : buffer.length = n) :
    (write_burst h reg buffer n w).trace
      = w.trace ++
        ([Event.select, Event.exchange (reg.code ||| h.CC1101_WRITE_BURST) (w.rx w.pos)]
          ++ (List.range n).map (fun i =>
                Event.exchange (buffer.getD i 0) (w.rx (w.pos + 1 + i)))
          ++ [Event.deselect])
    ∧ sent ((write_burst h reg buffer n w).since w)
        = [Sent.select, Sent.byte (reg.code ||| h.CC1101_WRITE_BURST)]
          ++ buffer.map Sent.byte ++ [Sent.deselect]
    ∧ exchanges ((write_burst h reg buffer n w).since w) = n + 1
    ∧ selects ((write_burst h reg buffer n w).since w) = 1
    ∧ deselects ((write_burst h reg buffer n w).since w) = 1 := by
  have c := counts_payload_exchanges buffer n (w.advance 1 [])
  rw [write_burst_eq h reg buffer n w hn, World.since_advance]
  refine ⟨rfl, ?_, ?_, ?_, ?_⟩
  · subst hlen
    rw [sent_append, sent_append, sent_payload_exchanges]
    rfl
  · unfold exchanges at c ⊢
    rw [List.countP_append, List.countP_append, c.1]
    simp
    omega
  · unfold selects at c ⊢
    rw [List.count_append, List.count_append, c.2.1]
    simp
  · unfold deselects at c ⊢
    rw [List.count_append, List.count_append, c.2.2]
    simp

theorem write_burst_framing_witness :
    (0 < 3 ∧ [0xA1, 0xB2, 0xC3].length = 3)
    ∧ (write_burst sample_header ⟨0x3E⟩ [0xA1, 0xB2, 0xC3] 3 sample_busy).since sample_busy
        = [Event.select, Event.exchange 0x7E 0xFF, Event.exchange 0xA1 0x01,
           Event.exchange 0xB2 0x02, Event.exchange 0xC3 0x03, Event.deselect]
    ∧ exchanges
        ((write_burst sample_header ⟨0x3E⟩ [0xA1, 0xB2, 0xC3] 3 sample_busy).since sample_busy)
        = 4 :=
  ⟨⟨by decide, rfl⟩,
   World.since_of_trace _ _ _
     (write_burst_framing sample_header ⟨0x3E⟩ [0xA1, 0xB2, 0xC3] 3 sample_busy
       (by decide) rfl).1,
   (write_burst_framing sample_header ⟨0x3E⟩ [0xA1, 0xB2, 0xC3] 3 sample_busy
       (by decide) rfl).2.2.1⟩

theorem read_burst_eq (h : Header) (reg : CC1101Register) (buffer : List Byte) (n : Nat)
    (w : World) (hn : 0 < n) :
    read_burst h reg buffer n w
      = ((List.range n).map (fun i => w.rx (w.pos + 1 + i)) ++ buffer.drop n,
         w.advance (n + 1)
          [Event.select, Event.exchange (reg.code ||| h.CC1101_READ_BURST) (w.rx w.pos),
           Event.block (buffer.take n) ((List.range n).map (fun i => w.rx (w.pos + 1 + i))),
           Event.deselect]) := by
  unfold read_burst
  rw [if_neg (Nat.pos_iff_ne_zero.mp hn)]
  simp [enable, transfer_byte, transfer_array, disable, World.advance, incoming,
    Nat.add_comm, Nat.add_left_comm]

/-- C9: with `n > 0`, `read_burst(r, buffer, n)` makes one transaction:
select, `address(r) | READ_BURST`, one block transfer of `n` bytes, deselect.
Afterwards `buffer[0..n-1]` holds the `n` bytes read back during the block,
in order, and the rest of the buffer is as before. The byte read back for the
address is used nowhere: this holds whatever it is, `0xFF` included. -/
theorem read_burst_framing (h : Header) (reg : CC1101Register) (buffer : List Byte)
    (n : Nat) (w : World) (hn : 0 < n) :
    (read_burst h reg buffer n w).2.trace
      = w.trace ++
        [Event.select, Event.exchange (reg.code ||| h.CC1101_READ_BURST) (w.rx w.pos),
         Event.block (buffer.take n) ((List.range n).map (fun i => w.rx (w.pos + 1 + i))),
         Event.deselect]
    ∧ (read_burst h reg buffer n w).1
        = (List.range n).map (fun i => w.rx (w.pos + 1 + i)) ++ buffer.drop n
    ∧ (∀ i, i < n → (read_burst h reg buffer n w).1[i]? = some (w.rx (w.pos + 1 + i)))
    ∧ selects ((read_burst h reg buffer n w).2.since w) = 1
    ∧ deselects ((read_burst h reg buffer n w).2.since w) = 1 := by
  rw [read_burst_eq h reg buffer n w hn, World.since_advance]
  refine ⟨rfl, rfl, ?_, by simp [selects], by simp [deselects]⟩
  intro i hi
  show ((List.range n).map (fun i => w.rx (w.pos + 1 + i)) ++ buffer.drop n)[i]? = _
  rw [List.getElem?_append_left (by simpa using hi)]
  simp [hi]

theorem read_burst_framing_witness :
    0 < 3
    ∧ (read_burst sample_header ⟨0x3E⟩ [0xAA, 0xBB, 0xCC, 0xDD] 3 sample_busy).1
        = [0x01, 0x02, 0x03, 0xDD]
    ∧ (read_burst sample_header ⟨0x3E⟩ [0xAA, 0xBB, 0xCC, 0xDD] 3 sample_busy).2.since
          sample_busy
        = [Event.select, Event.exchange 0xFE 0xFF,
           Event.block [0xAA, 0xBB, 0xCC] [0x01, 0x02, 0x03], Event.deselect] :=
  ⟨by decide,
   (read_burst_framing sample_header ⟨0x3E⟩ [0xAA, 0xBB, 0xCC, 0xDD] 3 sample_busy
      (by decide)).2.1,
   World.since_of_trace _ _ _
     (read_burst_framing sample_header ⟨0x3E⟩ [0xAA, 0xBB, 0xCC, 0xDD] 3 sample_busy
        (by decide)).1⟩

/-- C10: the FIFO operations are the burst operations at the fixed FIFO
address. After any sequence of calls, `read_rx_fifo(buffer, n)` does exactly
what `read_burst` does for a register whose code is `CC1101_FIFO`, with the
address byte `CC1101_FIFO | READ_BURST`, and `write_tx_fifo(buffer, n)` does
exactly what `write_burst` does for that register, with the address byte
`CC1101_FIFO | WRITE_BURST`. -/
theorem fifo_is_burst_at_fifo_address (h : Header) (buffer : List Byte) (n : Nat)
    (calls : List Call) (w0 : World) (hn : 0 < n) :
    read_rx_fifo h buffer n (run_calls h calls w0)
        = read_burst h ⟨h.CC1101_FIFO⟩ buffer n (run_calls h calls w0)
    ∧ (read_rx_fifo h buffer n (run_calls h calls w0)).2.trace
        = (run_calls h calls w0).trace ++
          [Event.select,
           Event.exchange (h.CC1101_FIFO ||| h.CC1101_READ_BURST)
             ((run_calls h calls w0).rx (run_calls h calls w0).pos),
           Event.block (buffer.take n)
             ((List.range n).map (fun i =>
               (run_calls h calls w0).rx ((run_calls h calls w0).pos + 1 + i))),
           Event.deselect]
    ∧ write_tx_fifo h buffer n (run_calls h calls w0)
        = write_burst h ⟨h.CC1101_FIFO⟩ buffer n (run_calls h calls w0)
    ∧ (write_tx_fifo h buffer n (run_calls h calls w0)).trace
        = (run_calls h calls w0).trace ++
          ([Event.select,
            Event.exchange (h.CC1101_FIFO ||| h.CC1101_WRITE_BURST)
              ((run_calls h calls w0).rx (run_calls h calls w0).pos)]
            ++ (List.range n).map (fun i =>
                  Event.exchange (buffer.getD i 0)
                    ((run_calls h calls w0).rx ((run_calls h calls w0).pos + 1 + i)))
            ++ [Event.deselect]) := by
  have hr : read_rx_fifo h buffer n (run_calls h calls w0)
      = read_burst h ⟨h.CC1101_FIFO⟩ buffer n (run_calls h calls w0) := rfl
  have hw : write_tx_fifo h buffer n (run_calls h calls w0)
      = write_burst h ⟨h.CC1101_FIFO⟩ buffer n (run_calls h calls w0) := rfl
  refine ⟨hr, ?_, hw, ?_⟩
  · rw [hr, read_burst_eq h _ buffer n _ hn]
    rfl
  · rw [hw, write_burst_eq h _ buffer n _ hn]
    rfl

theorem fifo_is_burst_at_fifo_address_witness :
    0 < 2
    ∧ (read_rx_fifo sample_header [0x00, 0x00] 2
          (run_calls sample_header [Call.write_register ⟨0x02⟩ 0x06, Call.read_register ⟨0x31⟩]
            sample_busy)).2.since
        (run_calls sample_header [Call.write_register ⟨0x02⟩ 0x06, Call.read_register ⟨0x31⟩]
          sample_busy)
      = [Event.select, Event.exchange 0xFF 0x0F, Event.block [0x00, 0x00] [0x11, 0x22],
         Event.deselect] :=
  ⟨by decide,
   World.since_of_trace _ _ _
     (fifo_is_burst_at_fifo_address sample_header [0x00, 0x00] 2
        [Call.write_register ⟨0x02⟩ 0x06, Call.read_register ⟨0x31⟩] sample_busy
        (by decide)).2.1⟩

/-- The limiter when the window test of line 16 succeeds. -/
theorem should_log_permits (w : World)
    (hp : 1000 ≤ elapsed (reading w 0) w.last_warn_ms) :
    should_log_spi_ff_warning_ w
      = (true, { w with tick := w.tick + 1, last_warn_ms := reading w 0, suppressed := 0,
                        trace := w.trace ++ if w.suppressed > 0 then
                                   [Event.log (Diag.suppressed w.suppressed)] else [] }) := by
  unfold elapsed reading at hp
  unfold should_log_spi_ff_warning_ reading
  simp only [millis, Nat.add_zero] at hp ⊢
  by_cases hs : w.suppressed > 0
  · simp only [ge_iff_le, hp, hs, if_true, log]
  · simp only [ge_iff_le, hp, hs, if_true, if_false]
    have h0 : w.suppressed = 0 := by omega
    simp [h0]

/-- The limiter when the window test of line 16 fails. -/
theorem should_log_suppresses (w : World)
    (hp : elapsed (reading w 0) w.last_warn_ms < 1000) :
    should_log_spi_ff_warning_ w
      = (false, { w with tick := w.tick + 1,
                         suppressed := (w.suppressed + 1) % 2 ^ 32 }) := by
  unfold elapsed reading at hp
  unfold should_log_spi_ff_warning_
  simp only [millis, Nat.add_zero] at hp ⊢
  have hn : ¬ (w.clock w.tick % 2 ^ 32 + 2 ^ 32 - w.last_warn_ms) % 2 ^ 32 ≥ 1000 := by
    omega
  simp only [hn, if_false]

/-- C13, as stated, fails: from the initial limiter state an event at the
clock reading 500 ms is not permitted. It is counted as suppressed, and a
`read_register` that exhausts its attempts there logs nothing. -/
theorem first_event_below_one_second_is_suppressed :
    sample_early.last_warn_ms = 0 ∧ sample_early.suppressed = 0
    ∧ (should_log_spi_ff_warning_ sample_early).1 = false
    ∧ (should_log_spi_ff_warning_ sample_early).2.suppressed = 1
    ∧ (read_register sample_header ⟨0x31⟩ sample_early).1 = 0xFF
    ∧ ((read_register sample_header ⟨0x31⟩ sample_early).2.trace.filter Event.is_log) = [] := by
  decide

/-- C13, amended: starting from the initial limiter state (both statics 0),
the first event is permitted exactly when the clock reads at least 1000 ms.
When it is permitted no summary is logged, the timestamp becomes the reading
and the counter stays 0; at a reading below 1000 ms the event is suppressed,
the counter becomes 1 and the timestamp stays 0. -/
theorem first_event_permitted_iff (w : World) :
    ((should_log_spi_ff_warning_ { w with last_warn_ms := 0, suppressed := 0 }).1 = true
      ↔ 1000 ≤ w.clock w.tick % 2 ^ 32)
    ∧ (1000 ≤ w.clock w.tick % 2 ^ 32 →
        should_log_spi_ff_warning_ { w with last_warn_ms := 0, suppressed := 0 }
          = (true, { w with tick := w.tick + 1, last_warn_ms := w.clock w.tick % 2 ^ 32,
                            suppressed := 0 }))
    ∧ (w.clock w.tick % 2 ^ 32 < 1000 →
        should_log_spi_ff_warning_ { w with last_warn_ms := 0, suppressed := 0 }
          = (false, { w with tick := w.tick + 1, last_warn_ms := 0, suppressed := 1 })) := by
  have hlt : w.clock w.tick % 2 ^ 32 < 2 ^ 32 := Nat.mod_lt _ (by decide)
  have he : elapsed (reading { w with last_warn_ms := 0, suppressed := 0 } 0) 0
      = w.clock w.tick % 2 ^ 32 := by
    unfold elapsed reading
    simp only [Nat.add_zero, Nat.sub_zero]
    omega
  have hyes : 1000 ≤ w.clock w.tick % 2 ^ 32 →
      should_log_spi_ff_warning_ { w with last_warn_ms := 0, suppressed := 0 }
        = (true, { w with tick := w.tick + 1, last_warn_ms := w.clock w.tick % 2 ^ 32,
                          suppressed := 0 }) := by
    intro hp
    rw [should_log_permits _ (by rw [he]; exact hp)]
    simp [reading]
  have hno : w.clock w.tick % 2 ^ 32 < 1000 →
      should_log_spi_ff_warning_ { w with last_warn_ms := 0, suppressed := 0 }
        = (false, { w with tick := w.tick + 1, last_warn_ms := 0, suppressed := 1 }) := by
    intro hp
    rw [should_log_suppresses _ (by rw [he]; exact hp)]
    simp
  refine ⟨⟨fun ht => ?_, fun hp => by rw [hyes hp]⟩, hyes, hno⟩
  by_contra hc
  rw [hno (by omega)] at ht
  exact Bool.false_ne_true ht

theorem first_event_permitted_iff_witness :
    (1000 ≤ sample_all_ff.clock sample_all_ff.tick % 2 ^ 32
      ∧ (should_log_spi_ff_warning_
          { sample_all_ff with last_warn_ms := 0, suppressed := 0 }).1 = true)
    ∧ (sample_early.clock sample_early.tick % 2 ^ 32 < 1000
      ∧ (should_log_spi_ff_warning_
          { sample_early with last_warn_ms := 0, suppressed := 0 }).1 = false) :=
  ⟨⟨by decide, by rw [(first_event_permitted_iff sample_all_ff).2.1 (by decide)]⟩,
   ⟨by decide, by rw [(first_event_permitted_iff sample_early).2.2 (by decide)]⟩⟩

theorem reading_lt (w : World) (i : Nat) : reading w i < 2 ^ 32 :=
  Nat.mod_lt _ (by decide)

theorem elapsed_eq_int (now last : Nat) (hn : now < 2 ^ 32) (hl : last < 2 ^ 32) :
    ((elapsed now last : Nat) : Int) = ((now : Int) - (last : Int)) % 2 ^ 32 := by
  unfold elapsed
  norm_num at hn hl ⊢
  omega

theorem should_log_true_iff (w : World) :
    (should_log_spi_ff_warning_ w).1 = true
      ↔ 1000 ≤ elapsed (reading w 0) w.last_warn_ms := by
  constructor
  · intro ht
    by_contra hc
    rw [should_log_suppresses w (by omega)] at ht
    exact Bool.false_ne_true ht
  · intro hp
    rw [should_log_permits w hp]

theorem should_log_false_iff (w : World) :
    (should_log_spi_ff_warning_ w).1 = false
      ↔ elapsed (reading w 0) w.last_warn_ms < 1000 := by
  constructor
  · intro hf
    by_contra hc
    rw [should_log_permits w (by omega)] at hf
    exact Bool.false_ne_true hf.symm
  · intro hp
    rw [should_log_suppresses w hp]

theorem reading_after_call (w : World) (i : Nat) :
    reading (should_log_spi_ff_warning_ w).2 i = reading w (i + 1) := by
  by_cases hp : 1000 ≤ elapsed (reading w 0) w.last_warn_ms
  · rw [should_log_permits w hp]
    simp [reading, Nat.add_assoc, Nat.add_comm 1]
  · rw [should_log_suppresses w (by omega)]
    simp [reading, Nat.add_assoc, Nat.add_comm 1]

/-- A run of calls that all fall inside the window: every one is suppressed,
the timestamp stays and the counter goes up by one per call, modulo
`2 ^ 32`. -/
theorem limiter_run_suppressed (m : Nat) :
    ∀ w : World, w.suppressed < 2 ^ 32 →
      (∀ i, i < m → elapsed (reading w i) w.last_warn_ms < 1000) →
      limiter_run m w
        = (List.replicate m false,
           { w with tick := w.tick + m, suppressed := (w.suppressed + m) % 2 ^ 32 }) := by
  induction m with
  | zero =>
    intro w hs _
    have hm : w.suppressed % 2 ^ 32 = w.suppressed := Nat.mod_eq_of_lt hs
    simp only [limiter_run, List.replicate_zero, Nat.add_zero, hm]
  | succ m ih =>
    intro w hs hwin
    have h0 := hwin 0 (Nat.succ_pos m)
    have hcall := should_log_suppresses w h0
    have hnext : ∀ i, i < m →
        elapsed (reading (should_log_spi_ff_warning_ w).2 i)
          (should_log_spi_ff_warning_ w).2.last_warn_ms < 1000 := by
      intro i hi
      rw [reading_after_call]
      have := hwin (i + 1) (by omega)
      rw [hcall]
      exact this
    have hs1 : (should_log_spi_ff_warning_ w).2.suppressed < 2 ^ 32 := by
      rw [hcall]
      exact Nat.mod_lt _ (by decide)
    have key := ih (should_log_spi_ff_warning_ w).2 hs1 hnext
    unfold limiter_run
    rw [key, hcall]
    simp [List.replicate_succ, Nat.add_assoc, Nat.add_comm 1]

/-- A run whose calls are all suppressed but the last, which is permitted:
the last reading is at least 1000 ms after the timestamp, modulo `2 ^ 32`, the
others are less. -/
theorem limiter_run_until_permitted (m : Nat) :
    ∀ w : World, (limiter_run (m + 1) w).1 = List.replicate m false ++ [true] →
      1000 ≤ elapsed (reading w m) w.last_warn_ms
      ∧ ∀ i, i < m → elapsed (reading w i) w.last_warn_ms < 1000 := by
  induction m with
  | zero =>
    intro w hrun
    simp only [limiter_run, List.replicate_zero, List.nil_append, List.cons.injEq,
      and_true] at hrun
    exact ⟨(should_log_true_iff w).mp hrun, fun i hi => absurd hi (Nat.not_lt_zero i)⟩
  | succ m ih =>
    intro w hrun
    rw [limiter_run, List.replicate_succ, List.cons_append, List.cons.injEq] at hrun
    have h0 := (should_log_false_iff w).mp hrun.1
    have hcall := should_log_suppresses w h0
    have key := ih (should_log_spi_ff_warning_ w).2 hrun.2
    have hlast : (should_log_spi_ff_warning_ w).2.last_warn_ms = w.last_warn_ms := by
      rw [hcall]
    simp only [reading_after_call, hlast] at key
    refine ⟨key.1, fun i hi => ?_⟩
    rcases Nat.eq_zero_or_pos i with hz | hpos
    · rw [hz]; exact h0
    · have := key.2 (i - 1) (by omega)
      rwa [Nat.sub_add_cancel hpos] at this

/-- C18: the window test is exact modulo `2 ^ 32`. With the stored timestamp
`last` a `uint32_t`, a call at the reading `now` returns true exactly when
`(now - last) mod 2 ^ 32 ≥ 1000`, and then stores `now`. Hence, after a
permitted call at the reading `t`, calls at readings `t'` with
`(t' - t) mod 2 ^ 32 < 1000` are all suppressed, and when the next permitted
call comes after `m` suppressed ones its reading `t'` has
`(t' - t) mod 2 ^ 32 ≥ 1000`, whether or not the clock wrapped in between. -/
theorem window_test_is_modular (w : World) (m : Nat) (hl : w.last_warn_ms < 2 ^ 32) :
    ((should_log_spi_ff_warning_ w).1 = true
      ↔ 1000 ≤ ((reading w 0 : Int) - (w.last_warn_ms : Int)) % 2 ^ 32)
    ∧ ((should_log_spi_ff_warning_ w).1 = true →
        (should_log_spi_ff_warning_ w).2.last_warn_ms = reading w 0)
    ∧ ((should_log_spi_ff_warning_ w).1 = true →
        (∀ i, i < m → ((reading w (i + 1) : Int) - (reading w 0 : Int)) % 2 ^ 32 < 1000) →
        (limiter_run (m + 1) w).1 = true :: List.replicate m false)
    ∧ ((limiter_run (m + 2) w).1 = true :: (List.replicate m false ++ [true]) →
        1000 ≤ ((reading w (m + 1) : Int) - (reading w 0 : Int)) % 2 ^ 32) := by
  have hint := elapsed_eq_int (reading w 0) w.last_warn_ms (reading_lt w 0) hl
  have hstore : (should_log_spi_ff_warning_ w).1 = true →
      (should_log_spi_ff_warning_ w).2.last_warn_ms = reading w 0
      ∧ (should_log_spi_ff_warning_ w).2.suppressed = 0 := by
    intro ht
    rw [should_log_permits w ((should_log_true_iff w).mp ht)]
    exact ⟨rfl, rfl⟩
  refine ⟨?_, fun ht => (hstore ht).1, ?_, ?_⟩
  · rw [should_log_true_iff, ← hint]
    exact Int.ofNat_le.symm
  · intro ht hwin
    have hrun := limiter_run_suppressed m (should_log_spi_ff_warning_ w).2
      (by rw [(hstore ht).2]; decide)
      (by
        intro i hi
        rw [reading_after_call, (hstore ht).1]
        have := hwin i hi
        rw [← elapsed_eq_int _ _ (reading_lt w (i + 1)) (reading_lt w 0)] at this
        exact Int.ofNat_lt.mp this)
    rw [limiter_run, hrun, ht]
  · intro hrun
    rw [limiter_run, List.cons.injEq] at hrun
    have key := (limiter_run_until_permitted m (should_log_spi_ff_warning_ w).2 hrun.2).1
    rw [reading_after_call, (hstore hrun.1).1] at key
    rw [← elapsed_eq_int _ _ (reading_lt w (m + 1)) (reading_lt w 0)]
    exact Int.ofNat_le.mpr key

theorem window_test_is_modular_witness :
    sample_wrap.last_warn_ms < 2 ^ 32
    ∧ (should_log_spi_ff_warning_ sample_wrap).1 = true
    ∧ (∀ i, i < 3 →
        ((reading sample_wrap (i + 1) : Int) - (reading sample_wrap 0 : Int)) % 2 ^ 32 < 1000)
    ∧ (limiter_run 4 sample_wrap).1 = [true, false, false, false]
    ∧ (limiter_run 5 sample_wrap).1 = [true, false, false, false, true]
    ∧ (1000 : Int) ≤ ((reading sample_wrap 4 : Int) - (reading sample_wrap 0 : Int)) % 2 ^ 32 :=
  ⟨by decide, by decide, by decide,
   (window_test_is_modular sample_wrap 3 (by decide)).2.2.1 (by decide) (by decide),
   by decide,
   (window_test_is_modular sample_wrap 3 (by decide)).2.2.2 (by decide)⟩

theorem reported_append (s t : List Event) : reported (s ++ t) = reported s + reported t := by
  induction s with
  | nil => simp [reported]
  | cons e s ih =>
    cases e with
    | log d => cases d <;> (rw [List.cons_append]; simp only [reported]; omega)
    | _ => rw [List.cons_append]; simp only [reported]; omega

/-- The balance of the limiter over `n` calls without overflow: every call
is either permitted, or counted in the counter, or was counted and has since
been reported in a summary. -/
theorem limiter_run_balance (n : Nat) :
    ∀ w : World, never_wraps n w = true →
      n + reported w.trace + w.suppressed
        = (limiter_run n w).1.count true + reported (limiter_run n w).2.trace
          + (limiter_run n w).2.suppressed := by
  induction n with
  | zero => intro w _; simp [limiter_run]
  | succ n ih =>
    intro w hw
    simp only [never_wraps, Bool.and_eq_true, Bool.or_eq_true, decide_eq_true_eq] at hw
    have key := ih (should_log_spi_ff_warning_ w).2 hw.2
    by_cases hp : 1000 ≤ elapsed (reading w 0) w.last_warn_ms
    · have hcall := should_log_permits w hp
      have hrep : reported (should_log_spi_ff_warning_ w).2.trace
          + (should_log_spi_ff_warning_ w).2.suppressed
          = reported w.trace + w.suppressed := by
        rw [hcall]
        show reported (w.trace ++ _) + 0 = _
        rw [reported_append]
        by_cases hs : w.suppressed > 0
        · simp [hs, reported]
        · have h0 : w.suppressed = 0 := by omega
          simp [h0, reported]
      have hfst : (should_log_spi_ff_warning_ w).1 = true := by rw [hcall]
      rw [limiter_run, hfst, List.count_cons_self]
      dsimp only
      omega
    · have hlt : elapsed (reading w 0) w.last_warn_ms < 1000 := by omega
      have hfst : (should_log_spi_ff_warning_ w).1 = false := (should_log_false_iff w).mpr hlt
      have hno : w.suppressed + 1 < 2 ^ 32 := by
        rcases hw.1 with h | h
        · rw [hfst] at h; exact absurd h Bool.false_ne_true
        · exact h
      have hcall := should_log_suppresses w hlt
      have hrep : reported (should_log_spi_ff_warning_ w).2.trace = reported w.trace
          ∧ (should_log_spi_ff_warning_ w).2.suppressed = w.suppressed + 1 := by
        rw [hcall]
        exact ⟨rfl, Nat.mod_eq_of_lt hno⟩
      rw [limiter_run, hfst, List.count_cons_of_ne (by decide)]
      dsimp only
      omega

/-- C17: the limiter loses no event. Over any `n` calls made from the
initial state during which the counter does not overflow, the number of calls
is the number of permitted calls, plus the counts reported in the summaries,
plus the counter. A permitted call leaves the counter at 0 and logs the
summary exactly when the counter was not 0; a suppressed call adds exactly 1
to the counter and leaves the timestamp as it is. -/
theorem limiter_loses_no_event (rx : Nat → Byte) (clock : Nat → Nat) (n : Nat) (v : World)
    (hfree : never_wraps n (World.boot rx clock) = true) :
    n = (limiter_run n (World.boot rx clock)).1.count true
          + reported (limiter_run n (World.boot rx clock)).2.trace
          + (limiter_run n (World.boot rx clock)).2.suppressed
    ∧ ((should_log_spi_ff_warning_ v).1 = true →
        (should_log_spi_ff_warning_ v).2.suppressed = 0
        ∧ (should_log_spi_ff_warning_ v).2.trace
            = v.trace ++ if v.suppressed > 0 then [Event.log (Diag.suppressed v.suppressed)]
                         else [])
    ∧ ((should_log_spi_ff_warning_ v).1 = false → v.suppressed + 1 < 2 ^ 32 →
        (should_log_spi_ff_warning_ v).2.suppressed = v.suppressed + 1
        ∧ (should_log_spi_ff_warning_ v).2.last_warn_ms = v.last_warn_ms
        ∧ (should_log_spi_ff_warning_ v).2.trace = v.trace) := by
  refine ⟨?_, fun ht => ?_, fun hf hno => ?_⟩
  · have key := limiter_run_balance n (World.boot rx clock) hfree
    simpa [World.boot, reported] using key
  · rw [should_log_permits v ((should_log_true_iff v).mp ht)]
    exact ⟨rfl, rfl⟩
  · rw [should_log_suppresses v ((should_log_false_iff v).mp hf)]
    exact ⟨Nat.mod_eq_of_lt hno, rfl, rfl⟩

theorem limiter_loses_no_event_witness :
    never_wraps 5 sample_wrap = true
    ∧ (should_log_spi_ff_warning_ sample_wrap).1 = true
    ∧ (should_log_spi_ff_warning_ (should_log_spi_ff_warning_ sample_wrap).2).1 = false
    ∧ 5 = (limiter_run 5 sample_wrap).1.count true
            + reported (limiter_run 5 sample_wrap).2.trace
            + (limiter_run 5 sample_wrap).2.suppressed
    ∧ (should_log_spi_ff_warning_ sample_wrap).2.suppressed = 0
    ∧ (should_log_spi_ff_warning_ (should_log_spi_ff_warning_ sample_wrap).2).2.suppressed
        = 0 + 1 :=
  ⟨by decide, by decide, by decide,
   (limiter_loses_no_event (fun _ => 0xFF)
      (fun i => [4294966796, 4294967096, 100, 400, 600].getD i 0) 5 sample_wrap
      (by decide)).1,
   ((limiter_loses_no_event (fun _ => 0xFF)
      (fun i => [4294966796, 4294967096, 100, 400, 600].getD i 0) 5 sample_wrap
      (by decide)).2.1 (by decide)).1,
   ((limiter_loses_no_event (fun _ => 0xFF)
      (fun i => [4294966796, 4294967096, 100, 400, 600].getD i 0) 5
      (should_log_spi_ff_warning_ sample_wrap).2
      (by decide)).2.2 (by decide) (by decide)).1⟩

theorem timed_bus_append (s t : List Event) :
    timed_bus (s ++ t) = timed_bus s ++ timed_bus t := by
  simp [timed_bus]

theorem delays_append (s t : List Event) : delays (s ++ t) = delays s ++ delays t := by
  induction s with
  | nil => rfl
  | cons e s ih =>
    cases e <;> (rw [List.cons_append]; simp only [delays, ih, List.cons_append])

theorem timed_bus_warning_events (d : Diag) (w : World) :
    timed_bus (warning_events d w) = [] := by
  unfold warning_events timed_bus
  split_ifs <;> simp [Event.is_log]

theorem timed_bus_retry_note (k : Nat) (d : Diag) :
    timed_bus (if k > 0 then [Event.log d] else []) = [] := by
  split_ifs <;> simp [timed_bus, Event.is_log]

theorem timed_bus_failed_reads (addr : Byte) (w : World) (k : Nat) :
    timed_bus (failed_reads addr w k) = failed_reads addr w k := by
  unfold timed_bus failed_reads
  rw [List.filter_eq_self]
  intro e he
  rw [List.mem_flatMap] at he
  obtain ⟨i, _, hi⟩ := he
  simp only [read_frame, List.cons_append, List.nil_append, List.mem_cons,
    List.mem_singleton, List.not_mem_nil, or_false] at hi
  rcases hi with h | h | h | h | h <;> rw [h] <;> rfl

theorem timed_bus_failed_strobes (addr : Byte) (k : Nat) :
    timed_bus (failed_strobes addr k) = failed_strobes addr k := by
  unfold timed_bus failed_strobes
  rw [List.filter_eq_self]
  intro e he
  rw [List.mem_flatMap] at he
  obtain ⟨i, _, hi⟩ := he
  simp only [strobe_frame, List.cons_append, List.nil_append, List.mem_cons,
    List.mem_singleton, List.not_mem_nil, or_false] at hi
  rcases hi with h | h | h | h <;> rw [h] <;> rfl

theorem delays_failed_reads (addr : Byte) (w : World) (k : Nat) :
    delays (failed_reads addr w k) = List.replicate k CC1101_SPI_RETRY_DELAY_US := by
  induction k with
  | zero => rfl
  | succ k ih =>
    simp only [failed_reads] at ih ⊢
    rw [List.range_succ, List.flatMap_append, delays_append, ih, List.replicate_succ']
    simp [delays, read_frame]

theorem delays_failed_strobes (addr : Byte) (k : Nat) :
    delays (failed_strobes addr k) = List.replicate k CC1101_SPI_RETRY_DELAY_US := by
  induction k with
  | zero => rfl
  | succ k ih =>
    simp only [failed_strobes] at ih ⊢
    rw [List.range_succ, List.flatMap_append, delays_append, ih, List.replicate_succ']
    simp [delays, strobe_frame]

theorem delays_warning_events (d : Diag) (w : World) : delays (warning_events d w) = [] := by
  unfold warning_events
  split_ifs <;> simp [delays]

theorem delays_retry_note (k : Nat) (d : Diag) :
    delays (if k > 0 then [Event.log d] else []) = [] := by
  split_ifs <;> simp [delays]

/-- C14, as stated, fails: when all five attempts read back `0xFF` each of
the three operations delays five times, not four, and its last call to the
bus or the clock is a delay, after the deselect of the final attempt. -/
theorem exhausted_call_delays_five_times :
    (∀ i, i < CC1101_SPI_MAX_RETRIES → sample_all_ff.rx (sample_all_ff.pos + i) = 0xFF)
    ∧ delays ((read_register sample_header ⟨0x31⟩ sample_all_ff).2.since sample_all_ff)
        = [50, 50, 50, 50, 50]
    ∧ delays ((read_status sample_header ⟨0x34⟩ sample_all_ff).2.since sample_all_ff)
        = [50, 50, 50, 50, 50]
    ∧ delays ((send_strobe ⟨0x3D⟩ sample_all_ff).2.since sample_all_ff)
        = [50, 50, 50, 50, 50]
    ∧ (timed_bus ((read_register sample_header ⟨0x31⟩ sample_all_ff).2.since
          sample_all_ff)).getLast? = some (Event.delay 50)
    ∧ (timed_bus ((send_strobe ⟨0x3D⟩ sample_all_ff).2.since sample_all_ff)).drop 16
        = [Event.select, Event.exchange 0x3D 0xFF, Event.deselect, Event.delay 50] := by
  decide

/-- C14, amended: in `read_register`, `read_status` and `send_strobe` the
delay of 50 microseconds follows every attempt that reads back `0xFF`, the
fifth included. When the first `k < 5` attempts fail and the next succeeds,
the calls to the bus and the clock are `k` times a failed transaction followed
by a delay of 50, then the successful transaction with no delay after it:
exactly `k` delays, each between a deselect and the next select. When all five
attempts fail they are five times a failed transaction followed by a delay of
50: exactly five delays. -/
theorem retry_delay_follows_every_failed_attempt (h : Header) (reg : CC1101Register)
    (status : CC1101Status) (strobe : CC1101Strobe) (k : Nat) (w : World) :
    (k < CC1101_SPI_MAX_RETRIES → (∀ i, i < k → w.rx (w.pos + 2 * i) = 0xFF) →
      w.rx (w.pos + 2 * k) ≠ 0xFF →
      (timed_bus ((read_register h reg w).2.since w)
          = failed_reads (reg.code ||| h.CC1101_READ_SINGLE) w k
            ++ read_frame (reg.code ||| h.CC1101_READ_SINGLE)
                 (w.rx (w.pos + 2 * k)) (w.rx (w.pos + 2 * k + 1))
        ∧ delays ((read_register h reg w).2.since w) = List.replicate k 50)
      ∧ (timed_bus ((read_status h status w).2.since w)
          = failed_reads (status.code ||| h.CC1101_READ_BURST) w k
            ++ read_frame (status.code ||| h.CC1101_READ_BURST)
                 (w.rx (w.pos + 2 * k)) (w.rx (w.pos + 2 * k + 1))
        ∧ delays ((read_status h status w).2.since w) = List.replicate k 50))
    ∧ ((∀ i, i < CC1101_SPI_MAX_RETRIES → w.rx (w.pos + 2 * i) = 0xFF) →
      (timed_bus ((read_register h reg w).2.since w)
          = failed_reads (reg.code ||| h.CC1101_READ_SINGLE) w 5
        ∧ delays ((read_register h reg w).2.since w) = List.replicate 5 50)
      ∧ (timed_bus ((read_status h status w).2.since w)
          = failed_reads (status.code ||| h.CC1101_READ_BURST) w 5
        ∧ delays ((read_status h status w).2.since w) = List.replicate 5 50))
    ∧ (k < CC1101_SPI_MAX_RETRIES → (∀ i, i < k → w.rx (w.pos + i) = 0xFF) →
      w.rx (w.pos + k) ≠ 0xFF →
      timed_bus ((send_strobe strobe w).2.since w)
          = failed_strobes strobe.code k ++ strobe_frame strobe.code (w.rx (w.pos + k))
        ∧ delays ((send_strobe strobe w).2.since w) = List.replicate k 50)
    ∧ ((∀ i, i < CC1101_SPI_MAX_RETRIES → w.rx (w.pos + i) = 0xFF) →
      timed_bus ((send_strobe strobe w).2.since w) = failed_strobes strobe.code 5
        ∧ delays ((send_strobe strobe w).2.since w) = List.replicate 5 50) := by
  refine ⟨fun hk hfail hok => ⟨?_, ?_⟩, fun hall => ⟨?_, ?_⟩, fun hk hfail hok => ?_,
    fun hall => ?_⟩
  · have key : read_register h reg w = _ :=
      read_register_from_ok reg (reg.code ||| h.CC1101_READ_SINGLE) k w hk hfail hok
    rw [key, World.since_advance]
    refine ⟨?_, ?_⟩
    · rw [timed_bus_append, timed_bus_append, timed_bus_retry_note, timed_bus_failed_reads,
        List.append_nil]
      rfl
    · rw [delays_append, delays_append, delays_retry_note, delays_failed_reads,
        List.append_nil]
      simp [delays, read_frame, CC1101_SPI_RETRY_DELAY_US]
  · have key := read_status_ok h status k w hk hfail hok
    rw [key, World.since_advance]
    refine ⟨?_, ?_⟩
    · rw [timed_bus_append, timed_bus_append, timed_bus_retry_note, timed_bus_failed_reads,
        List.append_nil]
      rfl
    · rw [delays_append, delays_append, delays_retry_note, delays_failed_reads,
        List.append_nil]
      simp [delays, read_frame, CC1101_SPI_RETRY_DELAY_US]
  · have key : read_register h reg w = _ :=
      read_register_from_exhausted reg (reg.code ||| h.CC1101_READ_SINGLE) w hall
    rw [key, report_exhausted_since]
    refine ⟨?_, ?_⟩
    · rw [timed_bus_append, timed_bus_warning_events, timed_bus_failed_reads,
        List.append_nil]
      rfl
    · rw [delays_append, delays_warning_events, delays_failed_reads, List.append_nil]
      rfl
  · have key := read_status_exhausted h status w hall
    rw [key, report_exhausted_since]
    refine ⟨?_, ?_⟩
    · rw [timed_bus_append, timed_bus_warning_events, timed_bus_failed_reads,
        List.append_nil]
      rfl
    · rw [delays_append, delays_warning_events, delays_failed_reads, List.append_nil]
      rfl
  · have key := send_strobe_ok strobe k w hk hfail hok
    rw [key, World.since_advance]
    refine ⟨?_, ?_⟩
    · rw [timed_bus_append, timed_bus_append, timed_bus_retry_note, timed_bus_failed_strobes,
        List.append_nil]
      rfl
    · rw [delays_append, delays_append, delays_retry_note, delays_failed_strobes,
        List.append_nil]
      simp [delays, strobe_frame, CC1101_SPI_RETRY_DELAY_US]
  · have key := send_strobe_exhausted strobe w hall
    rw [key, report_exhausted_since]
    refine ⟨?_, ?_⟩
    · rw [timed_bus_append, timed_bus_warning_events, timed_bus_failed_strobes,
        List.append_nil]
      rfl
    · rw [delays_append, delays_warning_events, delays_failed_strobes, List.append_nil]
      rfl

theorem retry_delay_follows_every_failed_attempt_witness :
    ((2 < CC1101_SPI_MAX_RETRIES
        ∧ (∀ i, i < 2 → sample_two_ff.rx (sample_two_ff.pos + 2 * i) = 0xFF)
        ∧ sample_two_ff.rx (sample_two_ff.pos + 2 * 2) ≠ 0xFF)
      ∧ delays ((read_register sample_header ⟨0x31⟩ sample_two_ff).2.since sample_two_ff)
          = List.replicate 2 50)
    ∧ ((∀ i, i < CC1101_SPI_MAX_RETRIES →
          sample_ff_status.rx (sample_ff_status.pos + 2 * i) = 0xFF)
      ∧ delays ((read_status sample_header ⟨0x34⟩ sample_ff_status).2.since sample_ff_status)
          = List.replicate 5 50)
    ∧ ((2 < CC1101_SPI_MAX_RETRIES
        ∧ (∀ i, i < 2 → sample_strobe_two_ff.rx (sample_strobe_two_ff.pos + i) = 0xFF)
        ∧ sample_strobe_two_ff.rx (sample_strobe_two_ff.pos + 2) ≠ 0xFF)
      ∧ delays ((send_strobe ⟨0x3D⟩ sample_strobe_two_ff).2.since sample_strobe_two_ff)
          = List.replicate 2 50)
    ∧ ((∀ i, i < CC1101_SPI_MAX_RETRIES → sample_all_ff.rx (sample_all_ff.pos + i) = 0xFF)
      ∧ timed_bus ((send_strobe ⟨0x3D⟩ sample_all_ff).2.since sample_all_ff)
          = failed_strobes 0x3D 5) :=
  ⟨⟨⟨by decide, by decide, by decide⟩,
    ((retry_delay_follows_every_failed_attempt sample_header ⟨0x31⟩ ⟨0x34⟩ ⟨0x3D⟩ 2
        sample_two_ff).1 (by decide) (by decide) (by decide)).1.2⟩,
   ⟨by decide,
    ((retry_delay_follows_every_failed_attempt sample_header ⟨0x31⟩ ⟨0x34⟩ ⟨0x3D⟩ 2
        sample_ff_status).2.1 (by decide)).2.2⟩,
   ⟨⟨by decide, by decide, by decide⟩,
    ((retry_delay_follows_every_failed_attempt sample_header ⟨0x31⟩ ⟨0x34⟩ ⟨0x3D⟩ 2
        sample_strobe_two_ff).2.2.1 (by decide) (by decide) (by decide)).2⟩,
   ⟨by decide,
    ((retry_delay_follows_every_failed_attempt sample_header ⟨0x31⟩ ⟨0x34⟩ ⟨0x3D⟩ 2
        sample_all_ff).2.2.2 (by decide)).1⟩⟩

theorem limiter_state_advance (w : World) (n : Nat) (es : List Event) :
    limiter_state (w.advance n es) = limiter_state w := rfl

theorem should_log_advance (w : World) (n : Nat) (es : List Event) :
    (should_log_spi_ff_warning_ (w.advance n es)).1 = (should_log_spi_ff_warning_ w).1
    ∧ limiter_state (should_log_spi_ff_warning_ (w.advance n es)).2
        = limiter_state (should_log_spi_ff_warning_ w).2 := by
  by_cases hp : 1000 ≤ elapsed (reading w 0) w.last_warn_ms
  · have hp' : 1000 ≤ elapsed (reading (w.advance n es) 0) (w.advance n es).last_warn_ms := hp
    rw [should_log_permits w hp, should_log_permits _ hp']
    exact ⟨rfl, rfl⟩
  · have hq : elapsed (reading w 0) w.last_warn_ms < 1000 := by omega
    have hq' : elapsed (reading (w.advance n es) 0) (w.advance n es).last_warn_ms < 1000 := hq
    rw [should_log_suppresses w hq, should_log_suppresses _ hq']
    exact ⟨rfl, rfl⟩

theorem limiter_state_report_exhausted (d : Diag) (w : World) (n : Nat) (es : List Event) :
    limiter_state (report_exhausted d (w.advance n es))
      = limiter_state (should_log_spi_ff_warning_ w).2 := by
  rw [← (should_log_advance w n es).2]
  unfold report_exhausted
  split_ifs <;> rfl

theorem zero_length_noop_aux (h : Header) (reg : CC1101Register) (buffer : List Byte)
    (w : World) :
    read_burst h reg buffer 0 w = (buffer, w) ∧ write_burst h reg buffer 0 w = w := by
  simp [read_burst, write_burst]

/-- C15: the limiter is called, once, exactly by a `read_register`,
`read_status` or `send_strobe` whose five attempts all read back `0xFF`. Such
a call leaves the statics and the count of clock readings as one call of
`should_log_spi_ff_warning_` leaves them; a call in which an attempt succeeds,
and every call of `write_register`, `read_burst`, `write_burst`,
`read_rx_fifo` and `write_tx_fifo`, leaves them as they were. -/
theorem limiter_state_changes_only_on_exhaustion (h : Header) (reg : CC1101Register)
    (status : CC1101Status) (strobe : CC1101Strobe) (value : Byte) (buffer : List Byte)
    (n : Nat) (w : World) :
    limiter_state (read_register h reg w).2
        = (if reads_exhaust w then limiter_state (should_log_spi_ff_warning_ w).2
           else limiter_state w)
    ∧ limiter_state (read_status h status w).2
        = (if reads_exhaust w then limiter_state (should_log_spi_ff_warning_ w).2
           else limiter_state w)
    ∧ limiter_state (send_strobe strobe w).2
        = (if strobes_exhaust w then limiter_state (should_log_spi_ff_warning_ w).2
           else limiter_state w)
    ∧ (should_log_spi_ff_warning_ w).2.tick = w.tick + 1
    ∧ limiter_state (write_register reg value w) = limiter_state w
    ∧ limiter_state (read_burst h reg buffer n w).2 = limiter_state w
    ∧ limiter_state (write_burst h reg buffer n w) = limiter_state w
    ∧ limiter_state (read_rx_fifo h buffer n w).2 = limiter_state w
    ∧ limiter_state (write_tx_fifo h buffer n w) = limiter_state w := by
  have hread : ∀ x : CC1101Register, limiter_state (read_burst h x buffer n w).2
      = limiter_state w := by
    intro x
    rcases Nat.eq_zero_or_pos n with h0 | hpos
    · rw [h0, (zero_length_noop_aux h x buffer w).1]
    · rw [read_burst_eq h x buffer n w hpos]
      rfl
  have hwrite : ∀ x : CC1101Register, limiter_state (write_burst h x buffer n w)
      = limiter_state w := by
    intro x
    rcases Nat.eq_zero_or_pos n with h0 | hpos
    · rw [h0, (zero_length_noop_aux h x buffer w).2]
    · rw [write_burst_eq h x buffer n w hpos]
      rfl
  refine ⟨?_, ?_, ?_, ?_, ?_, hread reg, hwrite reg, hread ⟨h.CC1101_FIFO⟩,
    hwrite ⟨h.CC1101_FIFO⟩⟩
  · unfold reads_exhaust
    rcases all_ff_or_first_valid (fun i => w.rx (w.pos + 2 * i)) CC1101_SPI_MAX_RETRIES with
      hall | ⟨k, hk, hfail, hok⟩
    · have key : read_register h reg w = _ :=
        read_register_from_exhausted reg (reg.code ||| h.CC1101_READ_SINGLE) w hall
      rw [key, limiter_state_report_exhausted, decide_eq_true hall]
      rfl
    · have key : read_register h reg w = _ :=
        read_register_from_ok reg (reg.code ||| h.CC1101_READ_SINGLE) k w hk hfail hok
      have hnot : ¬ ∀ i, i < CC1101_SPI_MAX_RETRIES → w.rx (w.pos + 2 * i) = 0xFF :=
        fun hall => hok (hall k hk)
      rw [key, decide_eq_false hnot]
      rfl
  · unfold reads_exhaust
    rcases all_ff_or_first_valid (fun i => w.rx (w.pos + 2 * i)) CC1101_SPI_MAX_RETRIES with
      hall | ⟨k, hk, hfail, hok⟩
    · rw [read_status_exhausted h status w hall, limiter_state_report_exhausted,
        decide_eq_true hall]
      rfl
    · have hnot : ¬ ∀ i, i < CC1101_SPI_MAX_RETRIES → w.rx (w.pos + 2 * i) = 0xFF :=
        fun hall => hok (hall k hk)
      rw [read_status_ok h status k w hk hfail hok, decide_eq_false hnot]
      rfl
  · unfold strobes_exhaust
    rcases all_ff_or_first_valid (fun i => w.rx (w.pos + i)) CC1101_SPI_MAX_RETRIES with
      hall | ⟨k, hk, hfail, hok⟩
    · rw [send_strobe_exhausted strobe w hall, limiter_state_report_exhausted,
        decide_eq_true hall]
      rfl
    · have hnot : ¬ ∀ i, i < CC1101_SPI_MAX_RETRIES → w.rx (w.pos + i) = 0xFF :=
        fun hall => hok (hall k hk)
      rw [send_strobe_ok strobe k w hk hfail hok, decide_eq_false hnot]
      rfl
  · by_cases hp : 1000 ≤ elapsed (reading w 0) w.last_warn_ms
    · rw [should_log_permits w hp]
    · rw [should_log_suppresses w (by omega)]
  · rw [write_register_eq]
    rfl

/-- C16: for `send_strobe` the sentinel is unambiguous. The call returns
`0xFF` exactly when all five attempts read back `0xFF`. It makes `n`
transactions, `1 ≤ n ≤ 5`; every one before the last read back `0xFF`, the
value returned is the byte read back in the last one, and fewer than five
transactions are made only when the last one read back another byte than
`0xFF`. -/
theorem send_strobe_sentinel_unambiguous (strobe : CC1101Strobe) (w : World) :
    ((send_strobe strobe w).1 = 0xFF
      ↔ ∀ i, i < CC1101_SPI_MAX_RETRIES → w.rx (w.pos + i) = 0xFF)
    ∧ ∃ n, 1 ≤ n ∧ n ≤ CC1101_SPI_MAX_RETRIES
      ∧ bus ((send_strobe strobe w).2.since w)
          = (List.range n).flatMap (fun i => strobe_frame strobe.code (w.rx (w.pos + i)))
      ∧ (∀ i, i + 1 < n → w.rx (w.pos + i) = 0xFF)
      ∧ (send_strobe strobe w).1 = w.rx (w.pos + (n - 1))
      ∧ (w.rx (w.pos + (n - 1)) = 0xFF → n = CC1101_SPI_MAX_RETRIES) := by
  rcases all_ff_or_first_valid (fun i => w.rx (w.pos + i)) CC1101_SPI_MAX_RETRIES with
    hall | ⟨k, hk, hfail, hok⟩
  · have key := send_strobe_exhausted strobe w hall
    refine ⟨⟨fun _ => hall, fun _ => by rw [key]⟩, CC1101_SPI_MAX_RETRIES, by decide,
      le_refl _, ?_, fun i hi => hall i (by omega), ?_, fun _ => rfl⟩
    · rw [key, bus_report_exhausted_since, bus_failed_strobes]
      exact strobe_frames_congr _ (fun _ => 0xFF) (fun i => w.rx (w.pos + i)) _
        (fun i hi => (hall i hi).symm)
    · rw [key]
      exact (hall _ (by decide)).symm
  · have key := send_strobe_ok strobe k w hk hfail hok
    refine ⟨⟨fun hff => ?_, fun hall => absurd (hall k hk) hok⟩, k + 1, by omega, hk, ?_,
      fun i hi => hfail i (by omega), by rw [key]; rfl, fun hff => absurd hff hok⟩
    · rw [key] at hff
      exact absurd hff hok
    · rw [key, World.since_advance]
      exact bus_successful_strobe _ w k _ hfail

theorem line_from_append (s t : List Event) :
    ∀ l l' : Line, line_from l s = some l' → line_from l (s ++ t) = line_from l' t := by
  induction s with
  | nil =>
    intro l l' h
    simp only [line_from, Option.some.injEq] at h
    rw [List.nil_append, h]
  | cons e s ih =>
    intro l l' h
    rw [List.cons_append]
    simp only [line_from] at h ⊢
    cases hstep : l.step e with
    | none => rw [hstep] at h; exact absurd h (by simp)
    | some l1 =>
      rw [hstep] at h
      exact ih l1 l' h

theorem line_from_exchanges (body : List Event)
    (hbody : ∀ e, e ∈ body → e.is_exchange = true) :
    ∀ b : Bool, line_from (Line.selected b) body
      = some (Line.selected (b || !body.isEmpty)) := by
  induction body with
  | nil => intro b; simp [line_from]
  | cons e body ih =>
    intro b
    have he := hbody e (List.mem_cons_self e body)
    have ht := ih (fun x hx => hbody x (List.mem_cons_of_mem e hx)) true
    rw [Bool.true_or] at ht
    have hres : (b || !(e :: body).isEmpty) = true := by simp
    rw [hres]
    cases e with
    | exchange o i => exact ht
    | block o i => exact ht
    | select => exact absurd he (by decide)
    | deselect => exact absurd he (by decide)
    | delay us => exact absurd he (by simp [Event.is_exchange])
    | log d => exact absurd he (by simp [Event.is_exchange])

theorem line_from_frame (f : List Event) (hf : IsFrame f) :
    line_from Line.idle f = some Line.idle := by
  obtain ⟨body, hne, hbody, rfl⟩ := hf
  have h1 := line_from_exchanges body hbody false
  have hfalse : body.isEmpty = false := by
    cases body with
    | nil => exact absurd rfl hne
    | cons _ _ => rfl
  rw [hfalse] at h1
  rw [List.cons_append]
  show line_from (Line.selected false) (body ++ [Event.deselect]) = some Line.idle
  rw [line_from_append body [Event.deselect] _ _ h1]
  rfl

theorem line_from_frames (frames : List (List Event))
    (hf : ∀ f, f ∈ frames → IsFrame f) :
    line_from Line.idle frames.flatten = some Line.idle := by
  induction frames with
  | nil => rfl
  | cons f frames ih =>
    rw [List.flatten_cons,
      line_from_append f _ _ _ (line_from_frame f (hf f (List.mem_cons_self f frames)))]
    exact ih (fun g hg => hf g (List.mem_cons_of_mem f hg))

theorem framed_nil : Framed [] := ⟨[], rfl, fun _ h => absurd h (List.not_mem_nil _)⟩

theorem framed_append (s t : List Event) (hs : Framed s) (ht : Framed t) :
    Framed (s ++ t) := by
  obtain ⟨fs, hbs, hfs⟩ := hs
  obtain ⟨ft, hbt, hft⟩ := ht
  refine ⟨fs ++ ft, ?_, fun f hf => ?_⟩
  · rw [bus_append, hbs, hbt, List.flatten_append]
  · rcases List.mem_append.mp hf with h | h
    · exact hfs f h
    · exact hft f h

theorem framed_line (t : List Event) (ht : Framed t) :
    line_from Line.idle (bus t) = some Line.idle := by
  obtain ⟨frames, hb, hf⟩ := ht
  rw [hb]
  exact line_from_frames frames hf

theorem isFrame_read_frame (addr status data : Byte) :
    IsFrame (read_frame addr status data) :=
  ⟨[Event.exchange addr status, Event.exchange 0x00 data], by simp,
    by intro e he; simp at he; rcases he with h | h <;> rw [h] <;> rfl, rfl⟩

theorem isFrame_strobe_frame (addr status : Byte) : IsFrame (strobe_frame addr status) :=
  ⟨[Event.exchange addr status], by simp,
    by intro e he; simp at he; rw [he]; rfl, rfl⟩

theorem framed_of_read_frames (t : List Event) (addr : Byte) (f g : Nat → Byte) (n : Nat)
    (ht : bus t = (List.range n).flatMap fun i => read_frame addr (f i) (g i)) :
    Framed t := by
  refine ⟨(List.range n).map fun i => read_frame addr (f i) (g i), ?_, fun x hx => ?_⟩
  · rw [ht, List.flatMap_def]
  · obtain ⟨i, _, rfl⟩ := List.mem_map.mp hx
    exact isFrame_read_frame _ _ _

theorem framed_of_strobe_frames (t : List Event) (addr : Byte) (f : Nat → Byte) (n : Nat)
    (ht : bus t = (List.range n).flatMap fun i => strobe_frame addr (f i)) :
    Framed t := by
  refine ⟨(List.range n).map fun i => strobe_frame addr (f i), ?_, fun x hx => ?_⟩
  · rw [ht, List.flatMap_def]
  · obtain ⟨i, _, rfl⟩ := List.mem_map.mp hx
    exact isFrame_strobe_frame _ _

theorem bus_of_exchanges (body : List Event)
    (hbody : ∀ e, e ∈ body → e.is_exchange = true) : bus body = body := by
  unfold bus
  rw [List.filter_eq_self]
  intro e he
  have hx := hbody e he
  cases e <;> first | rfl | exact absurd hx (by simp [Event.is_exchange])

theorem framed_of_isFrame (f : List Event) (hf : IsFrame f) : Framed f := by
  refine ⟨[f], ?_, fun g hg => by rw [List.mem_singleton.mp hg]; exact hf⟩
  obtain ⟨body, _, hbody, rfl⟩ := hf
  rw [List.flatten_cons, List.flatten_nil, List.append_nil, List.cons_append,
    show Event.select :: (body ++ [Event.deselect])
      = [Event.select] ++ body ++ [Event.deselect] from rfl,
    bus_append, bus_append, bus_of_exchanges body hbody]
  rfl

theorem read_register_framed (h : Header) (reg : CC1101Register) (w : World) :
    ∃ es, (read_register h reg w).2.trace = w.trace ++ es ∧ Framed es := by
  rcases all_ff_or_first_valid (fun i => w.rx (w.pos + 2 * i)) CC1101_SPI_MAX_RETRIES with
    hall | ⟨k, hk, hfail, hok⟩
  · have key : read_register h reg w = _ :=
      read_register_from_exhausted reg (reg.code ||| h.CC1101_READ_SINGLE) w hall
    refine ⟨_, ?_, framed_of_read_frames _ (reg.code ||| h.CC1101_READ_SINGLE)
      (fun _ => 0xFF) (fun i => w.rx (w.pos + 2 * i + 1)) CC1101_SPI_MAX_RETRIES
      (bus_report_exhausted_since (Diag.read_register_ff reg.code) w
        (2 * CC1101_SPI_MAX_RETRIES) _ ▸ bus_failed_reads _ w _)⟩
    rw [key, report_exhausted_since, report_exhausted_trace]
    simp only [World.advance, List.append_assoc]
  · have key : read_register h reg w = _ :=
      read_register_from_ok reg (reg.code ||| h.CC1101_READ_SINGLE) k w hk hfail hok
    refine ⟨_, by rw [key]; rfl, framed_of_read_frames _ (reg.code ||| h.CC1101_READ_SINGLE)
      (fun i => w.rx (w.pos + 2 * i)) (fun i => w.rx (w.pos + 2 * i + 1)) (k + 1)
      (bus_successful_read _ w k _ hfail)⟩

theorem read_status_framed (h : Header) (status : CC1101Status) (w : World) :
    ∃ es, (read_status h status w).2.trace = w.trace ++ es ∧ Framed es := by
  obtain ⟨v, wa, wb, es, n, ha, _, hta, _, _, _, _, _, _, _, hbus⟩ :=
    read_status_simulation h status ⟨0⟩ w
  exact ⟨es, by rw [ha]; exact hta, framed_of_read_frames es _ _ _ n hbus⟩

theorem send_strobe_framed (strobe : CC1101Strobe) (w : World) :
    ∃ es, (send_strobe strobe w).2.trace = w.trace ++ es ∧ Framed es := by
  rcases all_ff_or_first_valid (fun i => w.rx (w.pos + i)) CC1101_SPI_MAX_RETRIES with
    hall | ⟨k, hk, hfail, hok⟩
  · have key := send_strobe_exhausted strobe w hall
    refine ⟨_, ?_, framed_of_strobe_frames _ strobe.code (fun _ => 0xFF)
      CC1101_SPI_MAX_RETRIES
      (bus_report_exhausted_since (Diag.send_strobe_ff strobe.code) w
        CC1101_SPI_MAX_RETRIES _ ▸ bus_failed_strobes _ _)⟩
    rw [key, report_exhausted_since, report_exhausted_trace]
    simp only [World.advance, List.append_assoc]
  · have key := send_strobe_ok strobe k w hk hfail hok
    refine ⟨_, by rw [key]; rfl, framed_of_strobe_frames _ strobe.code
      (fun i => w.rx (w.pos + i)) (k + 1) (bus_successful_strobe _ w k _ hfail)⟩

theorem write_register_framed (reg : CC1101Register) (value : Byte) (w : World) :
    ∃ es, (write_register reg value w).trace = w.trace ++ es ∧ Framed es := by
  refine ⟨_, by rw [write_register_eq]; rfl, framed_of_isFrame _ ?_⟩
  exact ⟨[Event.exchange reg.code (w.rx w.pos), Event.exchange value (w.rx (w.pos + 1))],
    by simp, by intro e he; simp at he; rcases he with h | h <;> rw [h] <;> rfl, rfl⟩

theorem read_burst_framed (h : Header) (reg : CC1101Register) (buffer : List Byte) (n : Nat)
    (w : World) :
    ∃ es, (read_burst h reg buffer n w).2.trace = w.trace ++ es ∧ Framed es := by
  rcases Nat.eq_zero_or_pos n with h0 | hpos
  · refine ⟨[], ?_, framed_nil⟩
    rw [h0, (zero_length_noop_aux h reg buffer w).1, List.append_nil]
  · refine ⟨_, by rw [read_burst_eq h reg buffer n w hpos]; rfl, framed_of_isFrame _ ?_⟩
    exact ⟨[Event.exchange (reg.code ||| h.CC1101_READ_BURST) (w.rx w.pos),
        Event.block (buffer.take n) ((List.range n).map (fun i => w.rx (w.pos + 1 + i)))],
      by simp, by intro e he; simp at he; rcases he with h | h <;> rw [h] <;> rfl, rfl⟩

theorem write_burst_framed (h : Header) (reg : CC1101Register) (buffer : List Byte) (n : Nat)
    (w : World) :
    ∃ es, (write_burst h reg buffer n w).trace = w.trace ++ es ∧ Framed es := by
  rcases Nat.eq_zero_or_pos n with h0 | hpos
  · refine ⟨[], ?_, framed_nil⟩
    rw [h0, (zero_length_noop_aux h reg buffer w).2, List.append_nil]
  · refine ⟨_, by rw [write_burst_eq h reg buffer n w hpos]; rfl, framed_of_isFrame _ ?_⟩
    refine ⟨Event.exchange (reg.code ||| h.CC1101_WRITE_BURST) (w.rx w.pos)
        :: payload_exchanges buffer n (w.advance 1 []), by simp, ?_, by simp⟩
    intro e he
    rcases List.mem_cons.mp he with h1 | h1
    · rw [h1]; rfl
    · obtain ⟨i, _, rfl⟩ := List.mem_map.mp h1
      rfl

/-- Every call of a public operation appends a framed piece to the trace. -/
theorem call_framed (h : Header) (c : Call) (w : World) :
    ∃ es, (c.run h w).trace = w.trace ++ es ∧ Framed es := by
  cases c with
  | read_register reg => exact read_register_framed h reg w
  | write_register reg value => exact write_register_framed reg value w
  | read_status status => exact read_status_framed h status w
  | read_burst reg buffer n => exact read_burst_framed h reg buffer n w
  | write_burst reg buffer n => exact write_burst_framed h reg buffer n w
  | send_strobe strobe => exact send_strobe_framed strobe w
  | read_rx_fifo buffer n => exact read_burst_framed h ⟨h.CC1101_FIFO⟩ buffer n w
  | write_tx_fifo buffer n => exact write_burst_framed h ⟨h.CC1101_FIFO⟩ buffer n w

/-- Every sequence of calls appends a framed piece to the trace. -/
theorem run_calls_framed (h : Header) (calls : List Call) :
    ∀ w : World, ∃ es, (run_calls h calls w).trace = w.trace ++ es ∧ Framed es := by
  induction calls with
  | nil => intro w; exact ⟨[], (List.append_nil _).symm, framed_nil⟩
  | cons c calls ih =>
    intro w
    obtain ⟨es, hes, hf⟩ := call_framed h c w
    obtain ⟨fs, hfs, hg⟩ := ih (c.run h w)
    refine ⟨es ++ fs, ?_, framed_append es fs hf hg⟩
    show (run_calls h calls (c.run h w)).trace = _
    rw [hfs, hes, List.append_assoc]

/-- C11: select and deselect are paired and never nested. For each of the
eight public operations, with any arguments and in any world, the calls to the
SPI device made by the call are a concatenation of zero or more frames, each
one select, then at least one byte or block exchange, then one deselect. Run
through the chip-select line, no select comes while selected, no exchange or
deselect comes while released, and the line is released at the end. The same
holds for every sequence of calls, so a sequence started with the line
released ends with it released. -/
theorem select_deselect_pairing (h : Header) (c : Call) (calls : List Call) (w : World) :
    (c.run h w).trace = w.trace ++ (c.run h w).since w
    ∧ (∃ frames : List (List Event), bus ((c.run h w).since w) = frames.flatten
        ∧ ∀ f, f ∈ frames → IsFrame f)
    ∧ line_from Line.idle (bus ((c.run h w).since w)) = some Line.idle
    ∧ Framed ((run_calls h calls w).since w)
    ∧ line_from Line.idle (bus ((run_calls h calls w).since w)) = some Line.idle
    ∧ (line_from Line.idle (bus w.trace) = some Line.idle →
        line_from Line.idle (bus (run_calls h calls w).trace) = some Line.idle) := by
  obtain ⟨es, hes, hf⟩ := call_framed h c w
  obtain ⟨fs, hfs, hg⟩ := run_calls_framed h calls w
  have se : (c.run h w).since w = es := World.since_of_trace _ w es hes
  have sf : (run_calls h calls w).since w = fs := World.since_of_trace _ w fs hfs
  rw [se, sf]
  refine ⟨hes, hf, framed_line es hf, hg, framed_line fs hg, fun hidle => ?_⟩
  rw [hfs, bus_append, line_from_append _ _ _ _ hidle]
  exact framed_line fs hg

theorem select_deselect_pairing_witness :
    line_from Line.idle (bus sample_busy.trace) = some Line.idle
    ∧ line_from Line.idle
        (bus (run_calls sample_header
          [Call.write_burst ⟨0x3E⟩ [0xA1, 0xB2] 2, Call.read_register ⟨0x31⟩,
           Call.read_rx_fifo [0x00, 0x00] 0, Call.send_strobe ⟨0x3D⟩] sample_busy).trace)
        = some Line.idle :=
  ⟨by decide,
   (select_deselect_pairing sample_header (Call.send_strobe ⟨0x3D⟩)
      [Call.write_burst ⟨0x3E⟩ [0xA1, 0xB2] 2, Call.read_register ⟨0x31⟩,
       Call.read_rx_fifo [0x00, 0x00] 0, Call.send_strobe ⟨0x3D⟩] sample_busy).2.2.2.2.2
      (by decide)⟩

end wmbus_radio
